import Mathlib

/-!
Verification development for the `scd-hwmon` driver (`src/scd-hwmon.c`):
a shallow embedding of the SMBus and MDIO transaction engines, the
per-bus timing-parameter registry and the retry/reset coordinator,
together with theorems settling the specification claims.

Conventions:
* C bit-field registers are embedded as structures of `Nat` fields; an
  assignment to a `w`-bit field is embedded with an explicit `% 2^w`.
* Hardware I/O is embedded by explicit oracles (`Nat → _` streams of
  register read values) and by event traces (`HwEv`) recording the
  register writes, reads and delays a code path performs.
* Linux errno constants are embedded as their numeric values; the driver
  returns `-errno` on failure, `0` (or a payload) on success.
-/

namespace Scd

/-- The Linux I/O errno (value 5); `-eio` is the driver's hard I/O
failure and its only retryable classification. -/
def eio : Int := 5

/-- Linux `EINVAL` (structural / capacity errors). -/
def EINVAL : Int := 22

/-- Linux `EBUSY` (returned by `new_object` once the device is initialized). -/
def EBUSY : Int := 16

/-- Linux `EAGAIN` (MDIO wait-response timeout). -/
def EAGAIN : Int := 11

/-- Linux `EOPNOTSUPP` (MDIO unsupported result count). -/
def EOPNOTSUPP : Int := 95

/-- Linux `EEXIST` (duplicate master id). -/
def EEXIST : Int := 17

/-- Linux `i2c.h`: `I2C_SMBUS_READ`. -/
def I2C_SMBUS_READ : Nat := 1

/-- Linux `i2c.h`: `I2C_SMBUS_WRITE`. -/
def I2C_SMBUS_WRITE : Nat := 0

/-- Linux `i2c.h`: `I2C_SMBUS_QUICK`. -/
def I2C_SMBUS_QUICK : Nat := 0

/-- Linux `i2c.h`: `I2C_SMBUS_BYTE`. -/
def I2C_SMBUS_BYTE : Nat := 1

/-- Linux `i2c.h`: `I2C_SMBUS_BYTE_DATA`. -/
def I2C_SMBUS_BYTE_DATA : Nat := 2

/-- Linux `i2c.h`: `I2C_SMBUS_WORD_DATA`. -/
def I2C_SMBUS_WORD_DATA : Nat := 3

/-- Linux `i2c.h`: `I2C_SMBUS_BLOCK_DATA`. -/
def I2C_SMBUS_BLOCK_DATA : Nat := 5

/-- Linux `i2c.h`: `I2C_SMBUS_I2C_BLOCK_DATA`. -/
def I2C_SMBUS_I2C_BLOCK_DATA : Nat := 8

/-- `scd-hwmon.c` line 51: `#define I2C_SMBUS_I2C_BLOCK_DATA_MSG 0x9`. -/
def I2C_SMBUS_I2C_BLOCK_DATA_MSG : Nat := 9

/-- `scd-hwmon.c` line 57: `#define MASTER_DEFAULT_MAX_RETRIES 6`,
the default of the `smbus_master_max_retries` module parameter. -/
def MASTER_DEFAULT_MAX_RETRIES : Nat := 6

/-- `struct bus_params` (lines 118-125): one per-target-address
timing-parameter override (`addr` is a u16 key, `t`/`datw`/`datr`/`ed`
are u8 tuning fields). -/
structure BusParams where
  addr : Nat
  t : Nat
  datw : Nat
  datr : Nat
  ed : Nat
deriving Repr, DecidableEq

/-- `default_smbus_params` (lines 127-132): the fixed baseline used when
no override is registered (timing class 1, data widths 3, early-data off). -/
def default_smbus_params : BusParams :=
  { addr := 0, t := 1, datw := 3, datr := 3, ed := 0 }

/-- `get_smbus_params` (lines 615-627): walk the bus's override list and
return the first entry whose `addr` matches, else the baseline. -/
def get_smbus_params (ps : List BusParams) (addr : Nat) : BusParams :=
  match ps.find? (fun p => p.addr == addr) with
  | some p => p
  | none => default_smbus_params

/-- `scd_set_smbus_params` (lines 2965-2998), restricted to an existing
bus: if an entry with the same `addr` exists, update its fields in place
(keeping its list position), otherwise append a fresh entry at the tail
(`list_add_tail`). -/
def scd_set_smbus_params (ps : List BusParams) (np : BusParams) : List BusParams :=
  match ps with
  | [] => [np]
  | p :: rest =>
    if p.addr == np.addr then
      { np with addr := p.addr } :: rest
    else
      p :: scd_set_smbus_params rest np

/-- `union smbus_request_reg` (lines 334-350), as named bit-fields.
Field widths: `d:8 ss:6 ed:1 br:1 dat:2 t:2 sp:1 da:1 dod:1 st:1 bs:4 ti:4`. -/
structure SmbusReq where
  d : Nat
  ss : Nat
  ed : Nat
  br : Nat
  dat : Nat
  t : Nat
  sp : Nat
  da : Nat
  dod : Nat
  st : Nat
  bs : Nat
  ti : Nat
deriving Repr, DecidableEq

/-- `union smbus_ctrl_status_reg` (lines 384-397).
Field widths: `fs:10 foe:1 brb:1 ver:2 fe:1 reset:1` (reserved gaps dropped). -/
structure SmbusCs where
  fs : Nat
  foe : Nat
  brb : Nat
  ver : Nat
  fe : Nat
  reset : Nat
deriving Repr, DecidableEq

/-- `union smbus_response_reg` (lines 419-433), as decoded by the hardware
read: `d:8 bus_conflict_error:1 timeout_error:1 ack_error:1 flushed:1 ti:4
ss:6 foe:1 fe:1`.  A well-formed decode has each field below its width
bound; no theorem below depends on that. -/
structure SmbusResp where
  d : Nat
  bus_conflict_error : Nat
  timeout_error : Nat
  ack_error : Nat
  flushed : Nat
  ti : Nat
  ss : Nat
  foe : Nat
  fe : Nat
deriving Repr, DecidableEq

/-- Hardware events a code path performs, in order: request-register
writes, control/status reads and writes, response-register reads
(each `rdResp` stands for one `smbus_master_read_resp` call) and
millisecond delays (`mdelay`/`msleep`). -/
inductive HwEv where
  | wrReq (r : SmbusReq)
  | rdCs
  | wrCs (c : SmbusCs)
  | rdResp
  | sleepMs (n : Nat)
deriving Repr, DecidableEq

/-- `smbus_master_reset` (lines 602-613) as an event trace, given the
control/status value `cs0` the hardware returns for its initial read:
set `reset` and `foe` (overflow-clear), hold 50 ms, clear `reset`
(leaving `foe` set), hold 50 ms. -/
def smbus_master_reset_events (cs0 : SmbusCs) : List HwEv :=
  let cs1 := { cs0 with reset := 1, foe := 1 }
  let cs2 := { cs1 with reset := 0 }
  [HwEv.rdCs, HwEv.wrCs cs1, HwEv.sleepMs 50, HwEv.wrCs cs2, HwEv.sleepMs 50]

/-- `smbus_check_resp` (lines 551-593): validate one decoded response
against the expected transaction-id.  Returns `none` on acceptance
(the C function returns 0) and `some tag` on the first failing
condition, checked in source order; the C function then returns `-eio`
and formats the reason string `"bad response: %s"` from the tag. -/
def smbus_check_resp (resp : SmbusResp) (tid : Nat) : Option String :=
  if resp.fe ≠ 0 then some "fe"
  else if resp.ack_error ≠ 0 then some "ack"
  else if resp.timeout_error ≠ 0 then some "timeout"
  else if resp.bus_conflict_error ≠ 0 then some "conflict"
  else if resp.flushed ≠ 0 then some "flush"
  else if resp.ti ≠ tid then some "tid"
  else if resp.foe ≠ 0 then some "overflow"
  else none

/-- The numeric return of `smbus_check_resp`: 0 on acceptance, `-eio`
on any failing condition. -/
def smbus_check_resp_ret (resp : SmbusResp) (tid : Nat) : Int :=
  match smbus_check_resp resp tid with
  | none => 0
  | some _ => -eio

/-- `scd_smbus_do_impl` lines 727-729: `req.reg = 0; req.bs = bus->id;
req.t = params->t;` (`bs` is 4 bits, `t` 2 bits wide). -/
def smbus_req_init (params : BusParams) (busId : Nat) : SmbusReq :=
  { d := 0, ss := 0, ed := 0, br := 0, dat := 0, t := params.t % 4,
    sp := 0, da := 0, dod := 0, st := 0, bs := busId % 16, ti := 0 }

/-- `scd_smbus_do_impl` lines 792-795: the pre-loop request fields
`req.st = 1; req.ss = ss; req.d = ((addr & 0xff) << 1) | (ss <= 2 ?
read_write : 0); req.dod = 1;` (`ss` field is 6 bits, `d` 8 bits). -/
def smbus_req_start (req : SmbusReq) (addr rw ssTot : Nat) : SmbusReq :=
  { req with
    st := 1,
    ss := ssTot % 64,
    d := (((addr % 256) * 2) ||| (if ssTot ≤ 2 then rw else 0)) % 256,
    dod := 1 }

/-- One iteration of the request-construction loop of `scd_smbus_do_impl`
(lines 796-825), before the request is written: the phase-dependent field
mutations, applied in source order, followed by the derived
`req.da = !(req.dod || req.sp)`. -/
def smbus_phase_step (params : BusParams) (addr command rw ssTot dataOff : Nat)
    (data : List Nat) (i : Nat) (req0 : SmbusReq) : SmbusReq :=
  let r1 := if i = ssTot - 1 then
      { req0 with
        sp := 1,
        ed := params.ed % 2,
        dat := (if rw = I2C_SMBUS_WRITE then params.datw else params.datr) % 4 }
    else req0
  let r2 := if i = 1 then
      { r1 with
        st := 0,
        ss := 0,
        d := command % 256,
        dod := if ssTot = 2 then (if rw = I2C_SMBUS_WRITE then 1 else 0) else 1 }
    else r1
  let r3 := if i = 2 ∧ rw = I2C_SMBUS_READ then
      { r2 with st := 1, d := (((addr % 256) * 2) ||| 1) % 256 }
    else r2
  let r4 := if 2 ≤ i ∧ rw = I2C_SMBUS_WRITE then
      { r3 with d := (data.getD (dataOff + i - 2) 0) % 256 }
    else r3
  let r5 := if i = 3 ∧ rw = I2C_SMBUS_READ then { r4 with dod := 0 } else r4
  { r5 with da := if r5.dod = 0 ∧ r5.sp = 0 then 1 else 0 }

/-- The request-construction loop of `scd_smbus_do_impl` (lines 796-829)
as the list of request-register values written, one per phase: apply the
phase-`i` mutations, emit the request, then `req.ti++` (a 4-bit field,
so mod 16) and `req.st = 0`.  `fuel` is the number of phases left. -/
def smbus_issue_go (params : BusParams) (addr command rw ssTot dataOff : Nat)
    (data : List Nat) : Nat → Nat → SmbusReq → List SmbusReq
  | _, 0, _ => []
  | i, fuel + 1, req =>
    let r := smbus_phase_step params addr command rw ssTot dataOff data i req
    r :: smbus_issue_go params addr command rw ssTot dataOff data
      (i + 1) fuel { r with ti := (r.ti + 1) % 16, st := 0 }

/-- The phase-count switch of `scd_smbus_do_impl` (lines 731-790) for the
generic (non-hardware-assisted) path.  `data` is the caller buffer
(`data->block`); for `I2C_SMBUS_BLOCK_DATA` reads this is the buffer
after the one-byte length probe, whose result the probe stored in
`data->block[0]` (`data->byte` aliases `block[0]`), so `ss = 4 + block[0]`.
Sizes outside the switch leave `ss = 0` as in the source. -/
def smbus_ss (size rw : Nat) (data : List Nat) (data_size : Nat) : Nat :=
  if size = I2C_SMBUS_QUICK then 1
  else if size = I2C_SMBUS_BYTE then 2
  else if size = I2C_SMBUS_BYTE_DATA then
    (if rw = I2C_SMBUS_WRITE then 3 else 4)
  else if size = I2C_SMBUS_WORD_DATA then
    (if rw = I2C_SMBUS_WRITE then 4 else 5)
  else if size = I2C_SMBUS_I2C_BLOCK_DATA_MSG then
    (if rw = I2C_SMBUS_WRITE then 2 + data_size else 3 + data_size)
  else if size = I2C_SMBUS_I2C_BLOCK_DATA then
    (if rw = I2C_SMBUS_WRITE then 2 + data.getD 0 0 else 3 + data.getD 0 0)
  else if size = I2C_SMBUS_BLOCK_DATA then
    (if rw = I2C_SMBUS_WRITE then 3 + data.getD 0 0 else 4 + data.getD 0 0)
  else 0

/-- `scd_smbus_do_impl` line 760: `data_offset = 1` for
`I2C_SMBUS_I2C_BLOCK_DATA`, else 0. -/
def smbus_data_offset (size : Nat) : Nat :=
  if size = I2C_SMBUS_I2C_BLOCK_DATA then 1 else 0

/-- The complete request-phase sequence `scd_smbus_do_impl` issues on the
generic path: resolve the per-address override, compute the phase count,
then run the construction loop from phase 0. -/
def scd_smbus_do_phases (overrides : List BusParams) (busId addr rw command size : Nat)
    (data : List Nat) (data_size : Nat) : List SmbusReq :=
  let params := get_smbus_params overrides addr
  let ssTot := smbus_ss size rw data data_size
  smbus_issue_go params addr command rw ssTot (smbus_data_offset size) data
    0 ssTot (smbus_req_start (smbus_req_init params busId) addr rw ssTot)

/-- The fifo-empty retry loop of `smbus_master_read_resp` (lines 535-549):
`retries = 20; cs = read_cs(); while (!cs.fs && --retries) { msleep(10);
cs = read_cs(); }` — `csFs k` is the `fs` field of the `k`-th
control/status read.  Returns (number of control/status reads performed,
whether the fifo was still empty at exit, the event trace so far).
`ev` carries the trace, starting from the read of `csFs i`. -/
def smbus_read_resp_go (csFs : Nat → Nat) : Nat → Nat → List HwEv → Nat × Bool × List HwEv
  | i, retries, ev =>
    if csFs i ≠ 0 then (i + 1, false, ev)
    else if h : retries - 1 = 0 then (i + 1, true, ev)
    else smbus_read_resp_go csFs (i + 1) (retries - 1)
      (ev ++ [HwEv.sleepMs 10, HwEv.rdCs])
termination_by i retries ev => retries
decreasing_by omega

/-- `smbus_master_read_resp` (lines 535-549): poll the fifo-size field up
to 20 times (10 ms between consecutive reads), log — but do not fail —
if still empty, then unconditionally read and return the response
register value `resp`.  Result: (returned response, control/status reads
performed, fifo-still-empty logged, event trace). -/
def smbus_master_read_resp_model (csFs : Nat → Nat) (resp : SmbusResp) :
    SmbusResp × Nat × Bool × List HwEv :=
  let r := smbus_read_resp_go csFs 0 20 [HwEv.rdCs]
  (resp, r.1, r.2.1, r.2.2 ++ [HwEv.rdResp])

/-- The data-routing step of the response loop of `scd_smbus_do_impl`
(lines 839-869) for phase `i` carrying response data byte `d`:
* byte / byte-data reads store the last phase's byte at `block[0]`
  (`data->byte` aliases `block[0]`);
* word-data reads store the low byte then or-in the high byte
  (`data->word` aliases `block[0..1]`, little-endian);
* `I2C_SMBUS_I2C_BLOCK_DATA` reads store phase `i ≥ 3` at `block[i-2]`
  after the capacity check `i - 2 >= data_size`;
* every other size (the final `else`) stores phase `i ≥ 3` at
  `block[i-3]` after the capacity check `i - 3 >= data_size`.
`none` means the capacity check failed (`"buffer too short"`). -/
def smbus_route (size rw ssTot data_size i d : Nat) (buf : List Nat) :
    Option (List Nat) :=
  if rw = I2C_SMBUS_READ then
    if size = I2C_SMBUS_BYTE ∨ size = I2C_SMBUS_BYTE_DATA then
      some (if i = ssTot - 1 then buf.set 0 d else buf)
    else if size = I2C_SMBUS_WORD_DATA then
      some (if i = ssTot - 2 then (buf.set 0 d).set 1 0
            else if i = ssTot - 1 then buf.set 1 d else buf)
    else if 3 ≤ i then
      if size = I2C_SMBUS_I2C_BLOCK_DATA then
        if data_size ≤ i - 2 then none else some (buf.set (i - 2) d)
      else
        if data_size ≤ i - 3 then none else some (buf.set (i - 3) d)
    else some buf
  else some buf

/-- Outcome of the response-processing half of `scd_smbus_do_impl`:
return value, diagnostic reason (`fail_reason`), final caller buffer and
hardware event trace. -/
structure RespOut where
  ret : Int
  reason : Option String
  buf : List Nat
  events : List HwEv
deriving Repr, DecidableEq

/-- The response-processing loop of `scd_smbus_do_impl` (lines 831-880):
the `for (i = 0; i < ss; i++)` loop embedded with the number of
remaining iterations `fuel = ssTot - i` as the structural argument.  For
each phase `i` read the response (`resps i`), validate it against the
expected transaction-id (`req.ti` was reset to 0 and is incremented per
phase through its 4-bit field, hence `i % 16`), then route the data
byte.  Any validation failure returns `-eio` with reason
`"bad response: <tag>"`; a capacity failure returns `-EINVAL` with
reason `"buffer too short"`; both abort the exchange and run
`smbus_master_reset` (the `fail:` label) before returning.  `cs0` is the
control/status value the reset's initial read returns. -/
def smbus_resp_go (size rw data_size ssTot : Nat) (resps : Nat → SmbusResp)
    (cs0 : SmbusCs) : Nat → Nat → List Nat → List HwEv → RespOut
  | 0, _, buf, ev => ⟨0, none, buf, ev⟩
  | fuel + 1, i, buf, ev =>
    let r := resps i
    let ev2 := ev ++ [HwEv.rdResp]
    match smbus_check_resp r (i % 16) with
    | some e =>
      ⟨-eio, some ("bad response: " ++ e), buf, ev2 ++ smbus_master_reset_events cs0⟩
    | none =>
      match smbus_route size rw ssTot data_size i r.d buf with
      | none =>
        ⟨-EINVAL, some "buffer too short", buf, ev2 ++ smbus_master_reset_events cs0⟩
      | some buf2 => smbus_resp_go size rw data_size ssTot resps cs0 fuel (i + 1) buf2 ev2

/-- The whole response-processing half of `scd_smbus_do_impl`, from
phase 0 (all `ssTot` iterations ahead) with an empty event trace. -/
def scd_smbus_do_resp (size rw data_size ssTot : Nat) (resps : Nat → SmbusResp)
    (cs0 : SmbusCs) (buf : List Nat) : RespOut :=
  smbus_resp_go size rw data_size ssTot resps cs0 ssTot 0 buf []

/-- The retry loop of `scd_smbus_access_impl` (lines 898-926):
`do { ret = scd_smbus_do(...); if (ret != -eio) return ret; retry++; }
while (retry < master->max_retries); return -eio;` — `attempt k` is the
result of the `k`-th whole-exchange execution.  Returns (final return
value, number of whole-exchange executions performed). -/
def scd_smbus_access_go (attempt : Nat → Int) (max_retries : Nat) :
    Nat → Int × Nat
  | retry =>
    let ret := attempt retry
    if ret ≠ -eio then (ret, retry + 1)
    else if h : retry + 1 < max_retries then
      scd_smbus_access_go attempt max_retries (retry + 1)
    else (-eio, retry + 1)
termination_by retry => max_retries - retry
decreasing_by omega

/-- `scd_smbus_access_impl` (lines 898-926) as a function of the
per-attempt outcomes: run the do-while retry loop from `retry = 0`. -/
def scd_smbus_access_model (attempt : Nat → Int) (max_retries : Nat) : Int × Nat :=
  scd_smbus_access_go attempt max_retries 0

/-- The tail of the response loop of `scd_smbus_block_read`
(lines 686-705) from a phase `i ≥ 4`, with `n` phases left (the loop
bound is `ss = 4 + resp₃.d`, fixed once phase 3 has been validated):
check each response against transaction-id `i % 16`, fail with the
check's `-eio` on a bad response, fail with `-EINVAL` (`"output too
big"`) when `i - 3 >= data_size`, else store the byte at `block[i-3]`. -/
def smbus_br_tail (resps : Nat → SmbusResp) (data_size : Nat) :
    Nat → Nat → List Nat → Int × List Nat
  | _, 0, buf => (0, buf)
  | i, n + 1, buf =>
    let r := resps i
    match smbus_check_resp r (i % 16) with
    | some _ => (-eio, buf)
    | none =>
      if data_size ≤ i - 3 then (-EINVAL, buf)
      else smbus_br_tail resps data_size (i + 1) n (buf.set (i - 3) r.d)

/-- The response half of the hardware-assisted block read
`scd_smbus_block_read` (lines 686-705).  The loop starts with `ss = 4`;
at `i == 3` it grows the bound by the length byte (`ss += resp.d`) and,
like every later phase, stores `resp.d` at `block[i-3]` after the
capacity check.  Phases 0-2 (address, command, restart) carry no data.
Unrolled here into the three data-less phases, the length phase, and
the `resp₃.d` remaining data phases. -/
def scd_smbus_block_read_resp (resps : Nat → SmbusResp) (data_size : Nat)
    (buf : List Nat) : Int × List Nat :=
  match smbus_check_resp (resps 0) 0 with
  | some _ => (-eio, buf)
  | none =>
    match smbus_check_resp (resps 1) 1 with
    | some _ => (-eio, buf)
    | none =>
      match smbus_check_resp (resps 2) 2 with
      | some _ => (-eio, buf)
      | none =>
        let r3 := resps 3
        match smbus_check_resp r3 3 with
        | some _ => (-eio, buf)
        | none =>
          if data_size ≤ 0 then (-EINVAL, buf)
          else smbus_br_tail resps data_size 4 r3.d (buf.set 0 r3.d)

/-! ### MDIO transaction engine

The MDIO register layouts and wait macros live in `scd-mdio.h`, which is
not part of this repository snapshot; only their use sites
(`mdio_master_wait_response`, `scd_mdio_bus_request`, lines 1214-1285)
are in `src/scd-hwmon.c`.  The missing pieces are modelled from the
spec below and marked as such. -/

/-- Modelled from the spec: `MDIO_WAIT_INITIAL` from the missing header
`scd-mdio.h` — the short initial backoff delay (µs). -/
def MDIO_WAIT_INITIAL : Nat := 10

/-- Modelled from the spec: the total wait budget from the missing header
`scd-mdio.h` — `MDIO_WAIT_END` fails the poll once the (doubling) delay
exceeds it. -/
def MDIO_WAIT_BUDGET : Nat := 100000

/-- Modelled from the spec: `MDIO_WAIT_NEXT` from the missing header
`scd-mdio.h` — the backoff delay doubles each round. -/
def MDIO_WAIT_NEXT (d : Nat) : Nat := d * 2

/-- Modelled from the spec: `MDIO_WAIT_END` from the missing header
`scd-mdio.h` — the loop exits (timeout) once the delay passes the budget. -/
def MDIO_WAIT_END (d : Nat) : Bool := MDIO_WAIT_BUDGET < d

/-- `mdio_master_wait_response` (lines 1214-1239): poll the
control/status result-count field (`resCount k` is the value of the
`k`-th read).  1 = ready (return 0); 0 = back off (delay, then double)
and poll again until `MDIO_WAIT_END`; any other value returns
`-EOPNOTSUPP` at once; budget exhausted returns `-EAGAIN`.  `fuel`
bounds the recursion; the entry point supplies more fuel than the
doubling delay can ever consume before `MDIO_WAIT_END` triggers, so the
fuel-out branch (returning the same timeout error) is unreachable. -/
def mdio_wait_go (resCount : Nat → Nat) : Nat → Nat → Nat → Int
  | 0, _, _ => -EAGAIN
  | fuel + 1, i, delay =>
    if MDIO_WAIT_END delay then -EAGAIN
    else
      let c := resCount i
      if c = 1 then 0
      else if c = 0 then mdio_wait_go resCount fuel (i + 1) (MDIO_WAIT_NEXT delay)
      else -EOPNOTSUPP

/-- `mdio_master_wait_response` from its entry state:
`delay = MDIO_WAIT_INITIAL`, first poll is read 0. -/
def mdio_master_wait_response (resCount : Nat → Nat) : Int :=
  mdio_wait_go resCount 64 0 MDIO_WAIT_INITIAL

/-- Modelled from the spec: `enum mdio_operation` from the missing header
`scd-mdio.h` — the three request kinds (set-address, read, write). -/
inductive MdioOp where
  | set
  | read
  | write
deriving Repr, DecidableEq

/-- Modelled from the spec: the decoded `union mdio_response_reg` fields
used by `scd_mdio_bus_request` — transaction-started bit `ts`,
framing-error bit `fe`, 16-bit data field `d` (header `scd-mdio.h` is
missing from the snapshot). -/
structure MdioResp where
  ts : Nat
  fe : Nat
  d : Nat
deriving Repr, DecidableEq

/-- `scd_mdio_bus_request` (lines 1246-1285), given the result-count
poll stream and the decoded response register: issue the request, wait;
on wait failure return its error; on ready fail with `-eio` if the
response's transaction-started bit is unset or its framing-error bit is
set; otherwise a read returns the response's data field and any other
operation returns 0. -/
def scd_mdio_bus_request_model (op : MdioOp) (resCount : Nat → Nat)
    (resp : MdioResp) : Int :=
  let err := mdio_master_wait_response resCount
  if err ≠ 0 then err
  else if resp.ts ≠ 1 ∨ resp.fe = 1 then -eio
  else if op = MdioOp.read then (resp.d : Int) else 0

/-! ### Configuration interface and registry -/

/-- One logical SMBus bus of the registry: its global adapter number
(`bus->adap.nr`, the key `scd_find_smbus` matches) and its
per-address override list (`bus->params`). -/
structure ScdBus where
  nr : Nat
  params : List BusParams
deriving Repr, DecidableEq

/-- One SMBus master of the registry: its id and its buses. -/
structure ScdMaster where
  id : Nat
  buses : List ScdBus
deriving Repr, DecidableEq

/-- The per-device state the configuration interface touches:
`ctx->initialized` and the SMBus master registry (`smbus_master_list`). -/
structure ScdCtx where
  initialized : Bool
  masters : List ScdMaster
deriving Repr, DecidableEq

/-- `scd_smbus_master_add` (lines 1120-1168), at registry level: reject a
duplicate id with `-EEXIST`, else append a master whose buses are
numbered `0..bus_count-1` (`scd_smbus_bus_add` in creation order) with
empty override lists.  `nrBase` stands for the adapter numbers the i2c
core hands out (`adap.nr`), consecutive here. -/
def scd_smbus_master_add (ctx : ScdCtx) (id bus_count nrBase : Nat) : Int × ScdCtx :=
  if ctx.masters.any (fun m => m.id == id) then (-EEXIST, ctx)
  else
    (0, { ctx with
          masters := ctx.masters ++
            [{ id := id,
               buses := (List.range bus_count).map
                 (fun i => { nr := nrBase + i, params := [] }) }] })

/-- `new_object` (lines 2927-2945): a write to the `new_object`
configuration attribute is rejected with `-EBUSY` — before any line is
parsed, leaving the registry untouched — once `ctx->initialized` is set;
otherwise the parsed object-creation line is applied (here: the
`smbus_master` line, the registry-mutating creation this spec covers). -/
def new_object_smbus_master (ctx : ScdCtx) (id bus_count nrBase : Nat) : Int × ScdCtx :=
  if ctx.initialized then (-EBUSY, ctx)
  else scd_smbus_master_add ctx id bus_count nrBase

/-- `scd_find_smbus` (lines 2949-2963): find the bus whose adapter
number matches, across all masters. -/
def scd_find_smbus (ctx : ScdCtx) (bus_nr : Nat) : Option (Nat × Nat) :=
  go ctx.masters
where
  go : List ScdMaster → Option (Nat × Nat)
    | [] => none
    | m :: ms =>
      match m.buses.findIdx? (fun b => b.nr == bus_nr) with
      | some j => some (m.id, j)
      | none => go ms

/-- Replace the override list of the bus numbered `bus_nr` by applying `f`. -/
def scd_update_bus (ctx : ScdCtx) (bus_nr : Nat)
    (f : List BusParams → List BusParams) : ScdCtx :=
  { ctx with
    masters := ctx.masters.map (fun m =>
      { m with buses := m.buses.map (fun b =>
          if b.nr == bus_nr then { b with params := f b.params } else b) }) }

/-- `smbus_tweaks` (lines 3031-3045) → `parse_smbus_tweak` →
`scd_set_smbus_params` (lines 2965-2998), at the level of one parsed
override line `(bus_nr, params)`: look the bus up by adapter number
(`-EINVAL` if absent) and upsert the override.  Unlike `new_object`,
this sysfs write path has no `ctx->initialized` check. -/
def smbus_tweaks_model (ctx : ScdCtx) (bus_nr : Nat) (np : BusParams) : Int × ScdCtx :=
  match scd_find_smbus ctx bus_nr with
  | none => (-EINVAL, ctx)
  | some _ => (0, scd_update_bus ctx bus_nr (fun ps => scd_set_smbus_params ps np))

/-! ### Helper lemmas -/

/-- Any reason tag `smbus_check_resp` produces is one of the seven fixed
error names. -/
lemma smbus_check_resp_tags (resp : SmbusResp) (tid : Nat) (e : String)
    (h : smbus_check_resp resp tid = some e) :
    e ∈ ["fe", "ack", "timeout", "conflict", "flush", "tid", "overflow"] := by
  unfold smbus_check_resp at h
  split_ifs at h <;> simp_all

/-! ### Claim C2 -/

/-- **C2.** `smbus_check_resp` checks the failure conditions in exactly
the order framing-error → ack-error → timeout-error → bus-conflict-error
→ flushed → transaction-id mismatch → overflow, reports the first one
that matches with a distinct reason tag, and accepts — returning 0 —
exactly the responses with none of those indications and a matching
transaction-id. -/
theorem claim_C2_response_validation_order :
    (∀ resp tid, smbus_check_resp resp tid = none ↔
      (resp.fe = 0 ∧ resp.ack_error = 0 ∧ resp.timeout_error = 0 ∧
       resp.bus_conflict_error = 0 ∧ resp.flushed = 0 ∧ resp.ti = tid ∧
       resp.foe = 0)) ∧
    (∀ resp tid, smbus_check_resp_ret resp tid =
      if smbus_check_resp resp tid = none then 0 else -eio) ∧
    (∀ resp tid, resp.fe ≠ 0 → smbus_check_resp resp tid = some "fe") ∧
    (∀ resp tid, resp.fe = 0 → resp.ack_error ≠ 0 →
      smbus_check_resp resp tid = some "ack") ∧
    (∀ resp tid, resp.fe = 0 → resp.ack_error = 0 → resp.timeout_error ≠ 0 →
      smbus_check_resp resp tid = some "timeout") ∧
    (∀ resp tid, resp.fe = 0 → resp.ack_error = 0 → resp.timeout_error = 0 →
      resp.bus_conflict_error ≠ 0 →
      smbus_check_resp resp tid = some "conflict") ∧
    (∀ resp tid, resp.fe = 0 → resp.ack_error = 0 → resp.timeout_error = 0 →
      resp.bus_conflict_error = 0 → resp.flushed ≠ 0 →
      smbus_check_resp resp tid = some "flush") ∧
    (∀ resp tid, resp.fe = 0 → resp.ack_error = 0 → resp.timeout_error = 0 →
      resp.bus_conflict_error = 0 → resp.flushed = 0 → resp.ti ≠ tid →
      smbus_check_resp resp tid = some "tid") ∧
    (∀ resp tid, resp.fe = 0 → resp.ack_error = 0 → resp.timeout_error = 0 →
      resp.bus_conflict_error = 0 → resp.flushed = 0 → resp.ti = tid →
      resp.foe ≠ 0 → smbus_check_resp resp tid = some "overflow") ∧
    List.Pairwise (· ≠ ·)
      ["fe", "ack", "timeout", "conflict", "flush", "tid", "overflow"] := by
  refine ⟨?_, ?_, ?_, ?_, ?_, ?_, ?_, ?_, ?_, by decide⟩
  · intro resp tid
    constructor
    · intro h; unfold smbus_check_resp at h; split_ifs at h <;> simp_all
    · rintro ⟨h1, h2, h3, h4, h5, h6, h7⟩
      unfold smbus_check_resp; simp [h1, h2, h3, h4, h5, h6, h7]
  · intro resp tid
    unfold smbus_check_resp_ret
    rcases h : smbus_check_resp resp tid <;> simp [h]
  all_goals intro resp tid; intros; unfold smbus_check_resp; simp_all

/-- Witness for C2: a framing-error response is reported as `"fe"` even
with every other error bit set, and a clean response with the matching
transaction-id is accepted. -/
theorem claim_C2_witness :
    smbus_check_resp ⟨0, 1, 1, 1, 1, 9, 0, 1, 1⟩ 3 = some "fe" ∧
    smbus_check_resp ⟨77, 0, 0, 0, 0, 3, 0, 0, 0⟩ 3 = none :=
  ⟨claim_C2_response_validation_order.2.2.1 _ 3 (by decide),
   (claim_C2_response_validation_order.1 _ 3).mpr (by decide)⟩

/-! ### Claim C3 -/

/-- When every attempt returns `-eio`, the do-while loop runs the
exchange once per remaining retry budget and returns `-eio`. -/
lemma scd_access_go_all_eio (attempt : Nat → Int) (h : ∀ k, attempt k = -eio)
    (mr : Nat) :
    ∀ fuel retry, mr ≤ retry + 1 + fuel → retry < mr →
      scd_smbus_access_go attempt mr retry = (-eio, mr) := by
  intro fuel
  induction fuel with
  | zero =>
    intro retry h1 h2
    rw [scd_smbus_access_go]
    have hmr : mr = retry + 1 := by omega
    simp [h retry, hmr]
  | succ n ih =>
    intro retry h1 h2
    rw [scd_smbus_access_go]
    simp only [h retry]
    by_cases hc : retry + 1 < mr
    · simp only [if_neg (by simp : ¬(-eio ≠ -eio)), dif_pos hc]
      exact ih (retry + 1) (by omega) hc
    · have hmr : mr = retry + 1 := by omega
      simp [hmr]

/-- **C3.** The default retry budget is 6; an SMBus transaction whose
every whole-exchange attempt fails with the recoverable `-eio`
classification is executed exactly `max_retries` times and then surfaces
as a hard `-eio` failure; an attempt failing with any other (non-I/O
class) error returns that error immediately after the first execution. -/
theorem claim_C3_retry_policy :
    MASTER_DEFAULT_MAX_RETRIES = 6 ∧
    (∀ attempt mr, 1 ≤ mr → (∀ k, attempt k = -eio) →
      scd_smbus_access_model attempt mr = (-eio, mr)) ∧
    (∀ attempt mr e, attempt 0 = e → e ≠ -eio →
      scd_smbus_access_model attempt mr = (e, 1)) := by
  refine ⟨rfl, ?_, ?_⟩
  · intro attempt mr h1 h
    exact scd_access_go_all_eio attempt h mr mr 0 (by omega) (by omega)
  · intro attempt mr e he hne
    unfold scd_smbus_access_model
    rw [scd_smbus_access_go]
    simp [he, hne]

/-- Witness for C3: with the default budget of 6 and a permanently
failing exchange the driver runs 6 attempts and returns `-eio`; a
structural `-EINVAL` failure is returned after a single attempt. -/
theorem claim_C3_witness :
    scd_smbus_access_model (fun _ => -eio) MASTER_DEFAULT_MAX_RETRIES =
      (-eio, 6) ∧
    scd_smbus_access_model (fun _ => -EINVAL) MASTER_DEFAULT_MAX_RETRIES =
      (-EINVAL, 1) :=
  ⟨claim_C3_retry_policy.2.1 _ _ (by decide) (fun _ => rfl),
   claim_C3_retry_policy.2.2 _ _ _ rfl (by decide)⟩

/-! ### Claim C8 -/

/-- With the fifo reported empty on every read, the retry loop performs
exactly `retries` control/status reads in total (the initial one plus
`retries - 1` re-reads, a 10 ms sleep before each re-read) and exits
with the empty flag still set. -/
lemma smbus_read_resp_go_all_empty (csFs : Nat → Nat) (h : ∀ i, csFs i = 0) :
    ∀ retries i ev, 1 ≤ retries →
      smbus_read_resp_go csFs i retries ev =
        (i + retries, true,
         ev ++ (List.replicate (retries - 1) [HwEv.sleepMs 10, HwEv.rdCs]).join) := by
  intro retries
  induction retries with
  | zero => omega
  | succ n ih =>
    intro i ev _
    rw [smbus_read_resp_go]
    simp only [h i, ne_eq, not_true_eq_false, if_false]
    by_cases hn : n = 0
    · subst hn; simp
    · simp only [Nat.succ_sub_one, dif_neg hn]
      rw [ih (i + 1) (ev ++ [HwEv.sleepMs 10, HwEv.rdCs]) (by omega)]
      have hrep : (List.replicate n [HwEv.sleepMs 10, HwEv.rdCs]).join =
          [HwEv.sleepMs 10, HwEv.rdCs] ++
            (List.replicate (n - 1) [HwEv.sleepMs 10, HwEv.rdCs]).join := by
        cases n with
        | zero => omega
        | succ m => simp [List.replicate_succ]
      rw [hrep]
      simp only [Prod.mk.injEq, List.append_assoc]
      refine ⟨by omega, by simp⟩

/-- The retry loop never performs more than `max 1 retries`
control/status reads beyond `i`. -/
lemma smbus_read_resp_go_bound (csFs : Nat → Nat) :
    ∀ retries i ev, (smbus_read_resp_go csFs i retries ev).1 ≤ i + max 1 retries := by
  intro retries
  induction retries with
  | zero =>
    intro i ev
    rw [smbus_read_resp_go]
    split_ifs with h1 h2
    · exact Nat.add_le_add_left (le_max_left 1 0) i
    · exact Nat.add_le_add_left (le_max_left 1 0) i
    · omega
  | succ n ih =>
    intro i ev
    rw [smbus_read_resp_go]
    split_ifs with h1 h2
    · exact Nat.add_le_add_left (le_max_left 1 (n + 1)) i
    · exact Nat.add_le_add_left (le_max_left 1 (n + 1)) i
    · have hn : n ≠ 0 := by simpa using h2
      simp only [Nat.add_sub_cancel]
      have h3 := ih (i + 1) (ev ++ [HwEv.sleepMs 10, HwEv.rdCs])
      have m1 : max 1 n = n := Nat.max_eq_right (by omega)
      have m2 : max 1 (n + 1) = n + 1 := Nat.max_eq_right (by omega)
      rw [m1] at h3
      rw [m2]
      omega

/-- **C8.** Before each response-register read the engine polls the
control/status fifo-size field, retrying the fifo-empty check up to 20
times in total with a 10 ms sleep before each re-read; a non-empty fifo
stops the polling at once; if the fifo is still empty after all 20
checks the engine logs an error but nevertheless reads and returns the
response register instead of failing. -/
theorem claim_C8_fifo_poll :
    (∀ csFs resp, (smbus_master_read_resp_model csFs resp).1 = resp) ∧
    (∀ csFs resp, (smbus_master_read_resp_model csFs resp).2.1 ≤ 20) ∧
    (∀ csFs resp, (∀ i, csFs i = 0) →
      smbus_master_read_resp_model csFs resp =
        (resp, 20, true,
         HwEv.rdCs ::
           ((List.replicate 19 [HwEv.sleepMs 10, HwEv.rdCs]).join ++ [HwEv.rdResp]))) ∧
    (∀ csFs resp, csFs 0 ≠ 0 →
      smbus_master_read_resp_model csFs resp =
        (resp, 1, false, [HwEv.rdCs, HwEv.rdResp])) := by
  refine ⟨fun _ _ => rfl, ?_, ?_, ?_⟩
  · intro csFs resp
    have := smbus_read_resp_go_bound csFs 20 0 [HwEv.rdCs]
    simpa [smbus_master_read_resp_model] using this
  · intro csFs resp h
    unfold smbus_master_read_resp_model
    rw [smbus_read_resp_go_all_empty csFs h 20 0 [HwEv.rdCs] (by omega)]
    simp
  · intro csFs resp h
    unfold smbus_master_read_resp_model
    rw [smbus_read_resp_go]
    simp [h]

/-- Witness for C8: a fifo that stays empty forever yields 20 checks, a
logged error, and the response value is still returned; a fifo non-empty
at once yields a single check. -/
theorem claim_C8_witness :
    smbus_master_read_resp_model (fun _ => 0) ⟨1, 0, 0, 0, 0, 0, 0, 0, 0⟩ =
      (⟨1, 0, 0, 0, 0, 0, 0, 0, 0⟩, 20, true,
       HwEv.rdCs ::
         ((List.replicate 19 [HwEv.sleepMs 10, HwEv.rdCs]).join ++ [HwEv.rdResp])) ∧
    smbus_master_read_resp_model (fun _ => 7) ⟨1, 0, 0, 0, 0, 0, 0, 0, 0⟩ =
      (⟨1, 0, 0, 0, 0, 0, 0, 0, 0⟩, 1, false, [HwEv.rdCs, HwEv.rdResp]) :=
  ⟨claim_C8_fifo_poll.2.2.1 _ _ (fun _ => rfl),
   claim_C8_fifo_poll.2.2.2 _ _ (by decide)⟩

/-! ### Claim C5 -/

/-- With the result count stuck at 0 the MDIO poll loop always times out
with `-EAGAIN`. -/
lemma mdio_wait_go_all_zero (resCount : Nat → Nat) (h : ∀ j, resCount j = 0) :
    ∀ fuel i delay, mdio_wait_go resCount fuel i delay = -EAGAIN := by
  intro fuel
  induction fuel with
  | zero => intro i delay; rfl
  | succ n ih =>
    intro i delay
    by_cases he : MDIO_WAIT_END delay
    · simp [mdio_wait_go, he]
    · simp [mdio_wait_go, he, h i, ih]

/-- If the result count reads 0 for `k` polls and 1 on the `k`-th — and
the doubling backoff has not yet exceeded the budget — the MDIO poll
loop returns ready. -/
lemma mdio_wait_go_ready (resCount : Nat → Nat) :
    ∀ k fuel i delay, k < fuel → delay * 2 ^ k ≤ MDIO_WAIT_BUDGET →
      (∀ j, j < k → resCount (i + j) = 0) → resCount (i + k) = 1 →
      mdio_wait_go resCount fuel i delay = 0 := by
  intro k
  induction k with
  | zero =>
    intro fuel i delay hf hd h0 h1
    cases fuel with
    | zero => omega
    | succ n =>
      have hend : ¬ (MDIO_WAIT_END delay = true) := by
        unfold MDIO_WAIT_END
        simp only [decide_eq_true_eq, not_lt]
        calc delay = delay * 2 ^ 0 := by ring
          _ ≤ MDIO_WAIT_BUDGET := hd
      have h1i : resCount i = 1 := by simpa using h1
      simp [mdio_wait_go, hend, h1i]
  | succ m ih =>
    intro fuel i delay hf hd h0 h1
    cases fuel with
    | zero => omega
    | succ n =>
      have hle : delay ≤ delay * 2 ^ (m + 1) :=
        Nat.le_mul_of_pos_right delay (Nat.pos_pow_of_pos _ (by omega))
      have hend : ¬ (MDIO_WAIT_END delay = true) := by
        unfold MDIO_WAIT_END
        simp only [decide_eq_true_eq, not_lt]
        exact le_trans hle hd
      have hz : resCount i = 0 := by simpa using h0 0 (by omega)
      have hd2 : MDIO_WAIT_NEXT delay * 2 ^ m ≤ MDIO_WAIT_BUDGET := by
        unfold MDIO_WAIT_NEXT
        calc delay * 2 * 2 ^ m = delay * 2 ^ (m + 1) := by ring
          _ ≤ MDIO_WAIT_BUDGET := hd
      have h0s : ∀ j, j < m → resCount (i + 1 + j) = 0 := by
        intro j hj
        have := h0 (j + 1) (by omega)
        have heq : i + (j + 1) = i + 1 + j := by omega
        rwa [heq] at this
      have h1s : resCount (i + 1 + m) = 1 := by
        have heq : i + (m + 1) = i + 1 + m := by omega
        rwa [heq] at h1
      simp only [mdio_wait_go, hend, if_false, hz, if_neg (by omega : ¬(0 = 1)),
        if_pos rfl]
      exact ih n (i + 1) (MDIO_WAIT_NEXT delay) (by omega) hd2 h0s h1s

/-- **C5.** (spec-modelled wait macros) The MDIO engine polls the
control/status result-count field after issuing a request: a 1 means
ready and the engine proceeds (returns 0); 0 means back off with the
doubling delay, failing with `-EAGAIN` (the timeout error) once the wait
budget is exceeded; any other value is reported immediately as
`-EOPNOTSUPP`.  On a ready wait, a response whose transaction-started bit
is unset or whose framing-error bit is set fails the call with `-eio`;
only a read operation returns the response's data field, while a write
(or set-address) returns 0 with no payload. -/
theorem claim_C5_mdio_wait_and_request :
    (∀ rc k, (∀ j, j < k → rc j = 0) → rc k = 1 →
      MDIO_WAIT_INITIAL * 2 ^ k ≤ MDIO_WAIT_BUDGET → k < 64 →
      mdio_master_wait_response rc = 0) ∧
    (∀ rc, (∀ j, rc j = 0) → mdio_master_wait_response rc = -EAGAIN) ∧
    (∀ rc, rc 0 ≠ 0 → rc 0 ≠ 1 → mdio_master_wait_response rc = -EOPNOTSUPP) ∧
    (∀ op rc resp, mdio_master_wait_response rc = 0 →
      (resp.ts ≠ 1 ∨ resp.fe = 1) → scd_mdio_bus_request_model op rc resp = -eio) ∧
    (∀ rc resp, mdio_master_wait_response rc = 0 → resp.ts = 1 → resp.fe ≠ 1 →
      scd_mdio_bus_request_model MdioOp.read rc resp = (resp.d : Int) ∧
      scd_mdio_bus_request_model MdioOp.write rc resp = 0 ∧
      scd_mdio_bus_request_model MdioOp.set rc resp = 0) := by
  refine ⟨?_, ?_, ?_, ?_, ?_⟩
  · intro rc k h0 h1 hbud hk
    exact mdio_wait_go_ready rc k 64 0 MDIO_WAIT_INITIAL hk hbud
      (by simpa using h0) (by simpa using h1)
  · intro rc h
    exact mdio_wait_go_all_zero rc h 64 0 MDIO_WAIT_INITIAL
  · intro rc h0 h1
    unfold mdio_master_wait_response
    have hend : ¬ (MDIO_WAIT_END MDIO_WAIT_INITIAL = true) := by decide
    simp [mdio_wait_go, hend, h0, h1]
  · intro op rc resp hw hbad
    unfold scd_mdio_bus_request_model
    simp [hw, hbad]
  · intro rc resp hw hts hfe
    unfold scd_mdio_bus_request_model
    have hcond : ¬ (resp.ts ≠ 1 ∨ resp.fe = 1) := by
      push_neg
      exact ⟨hts, hfe⟩
    refine ⟨?_, ?_, ?_⟩ <;> simp [hw, hcond]

/-- Witness for C5: ready after two empty polls returns 0; a permanently
empty result count times out; an unsupported count fails at once; a
framing-error response is `-eio`; a clean read returns the data field and
a clean write returns 0. -/
theorem claim_C5_witness :
    mdio_master_wait_response (fun j => if j = 2 then 1 else 0) = 0 ∧
    mdio_master_wait_response (fun _ => 0) = -EAGAIN ∧
    mdio_master_wait_response (fun _ => 3) = -EOPNOTSUPP ∧
    scd_mdio_bus_request_model MdioOp.read (fun _ => 1) ⟨1, 1, 500⟩ = -eio ∧
    scd_mdio_bus_request_model MdioOp.read (fun _ => 1) ⟨1, 0, 48879⟩ = 48879 ∧
    scd_mdio_bus_request_model MdioOp.write (fun _ => 1) ⟨1, 0, 48879⟩ = 0 := by
  have hw : mdio_master_wait_response (fun _ => 1) = 0 :=
    claim_C5_mdio_wait_and_request.1 _ 0 (by omega) rfl (by decide) (by decide)
  refine ⟨?_, ?_, ?_, ?_, ?_, ?_⟩
  · exact claim_C5_mdio_wait_and_request.1 _ 2 (by decide) (by decide)
      (by decide) (by decide)
  · exact claim_C5_mdio_wait_and_request.2.1 _ (fun _ => rfl)
  · exact claim_C5_mdio_wait_and_request.2.2.1 _ (by decide) (by decide)
  · exact claim_C5_mdio_wait_and_request.2.2.2.1 MdioOp.read _ _ hw
      (Or.inr rfl)
  · exact (claim_C5_mdio_wait_and_request.2.2.2.2 _ _ hw rfl (by decide)).1
  · exact (claim_C5_mdio_wait_and_request.2.2.2.2 _ _ hw rfl (by decide)).2.1

/-! ### Phase-construction lemmas (claims C1 and C6) -/

/-- The phase mutations never touch the transaction-id field. -/
lemma smbus_phase_step_ti (params : BusParams) (addr command rw ssTot dataOff : Nat)
    (data : List Nat) (i : Nat) (req0 : SmbusReq) :
    (smbus_phase_step params addr command rw ssTot dataOff data i req0).ti = req0.ti := by
  unfold smbus_phase_step
  split_ifs <;> rfl

/-- The phase mutations never touch the timing-class field. -/
lemma smbus_phase_step_t (params : BusParams) (addr command rw ssTot dataOff : Nat)
    (data : List Nat) (i : Nat) (req0 : SmbusReq) :
    (smbus_phase_step params addr command rw ssTot dataOff data i req0).t = req0.t := by
  unfold smbus_phase_step
  split_ifs <;> rfl

/-- On the last phase the step sets the stop marker, the early-data flag
and the direction-specific data width from the bus parameters. -/
lemma smbus_phase_step_last (params : BusParams) (addr command rw ssTot dataOff : Nat)
    (data : List Nat) (i : Nat) (req0 : SmbusReq) (h : i = ssTot - 1) :
    (smbus_phase_step params addr command rw ssTot dataOff data i req0).ed =
      params.ed % 2 ∧
    (smbus_phase_step params addr command rw ssTot dataOff data i req0).dat =
      (if rw = I2C_SMBUS_WRITE then params.datw else params.datr) % 4 ∧
    (smbus_phase_step params addr command rw ssTot dataOff data i req0).sp = 1 := by
  unfold smbus_phase_step
  rw [if_pos h]
  split_ifs <;> exact ⟨rfl, rfl, rfl⟩

/-- The construction loop emits exactly `fuel` phases. -/
lemma smbus_issue_go_length (params : BusParams) (addr command rw ssTot dataOff : Nat)
    (data : List Nat) :
    ∀ fuel i req,
      (smbus_issue_go params addr command rw ssTot dataOff data i fuel req).length = fuel := by
  intro fuel
  induction fuel with
  | zero => intro i req; rfl
  | succ n ih => intro i req; simp [smbus_issue_go, ih]

/-- The transaction-ids stamped on the emitted phases follow the 4-bit
counter: starting from `req.ti`, the `k`-th phase carries
`(req.ti + k) % 16`. -/
lemma smbus_issue_go_map_ti (params : BusParams) (addr command rw ssTot dataOff : Nat)
    (data : List Nat) :
    ∀ fuel i req, req.ti < 16 →
      (smbus_issue_go params addr command rw ssTot dataOff data i fuel req).map SmbusReq.ti =
        (List.range fuel).map (fun k => (req.ti + k) % 16) := by
  intro fuel
  induction fuel with
  | zero => intro i req _; rfl
  | succ n ih =>
    intro i req hti
    rw [smbus_issue_go]
    simp only [List.map_cons]
    rw [List.range_succ_eq_map]
    simp only [List.map_cons, List.map_map]
    congr 1
    · rw [smbus_phase_step_ti]
      omega
    · rw [ih (i + 1) _ (by simp [smbus_phase_step_ti]; omega)]
      apply List.map_congr_left
      intro a _
      simp only [Function.comp_apply, smbus_phase_step_ti]
      omega

/-- Every emitted phase carries the timing-class field of the request
state the loop was entered with. -/
lemma smbus_issue_go_all_t (params : BusParams) (addr command rw ssTot dataOff : Nat)
    (data : List Nat) :
    ∀ fuel i req r,
      r ∈ smbus_issue_go params addr command rw ssTot dataOff data i fuel req →
      r.t = req.t := by
  intro fuel
  induction fuel with
  | zero => intro i req r h; simp [smbus_issue_go] at h
  | succ n ih =>
    intro i req r h
    rw [smbus_issue_go] at h
    rcases List.mem_cons.mp h with h1 | h2
    · rw [h1, smbus_phase_step_t]
    · have := ih (i + 1) _ r h2
      rw [this]
      simp [smbus_phase_step_t]

/-- The last phase emitted by a full run of the construction loop
(`i + fuel = ssTot`, at least one phase) carries the parameter-derived
early-data flag and data width and the stop marker. -/
lemma smbus_issue_go_last (params : BusParams) (addr command rw ssTot dataOff : Nat)
    (data : List Nat) :
    ∀ fuel i req, i + fuel + 1 = ssTot →
      ∃ l, (smbus_issue_go params addr command rw ssTot dataOff data i (fuel + 1) req).getLast? =
             some l ∧
           l.ed = params.ed % 2 ∧
           l.dat = (if rw = I2C_SMBUS_WRITE then params.datw else params.datr) % 4 ∧
           l.sp = 1 := by
  intro fuel
  induction fuel with
  | zero =>
    intro i req hss
    refine ⟨smbus_phase_step params addr command rw ssTot dataOff data i req, ?_, ?_⟩
    · rfl
    · exact smbus_phase_step_last params addr command rw ssTot dataOff data i req
        (by omega)
  | succ n ih =>
    intro i req hss
    rw [smbus_issue_go]
    obtain ⟨l, hl, hled, hldat, hlsp⟩ := ih (i + 1)
      { smbus_phase_step params addr command rw ssTot dataOff data i req with
        ti := ((smbus_phase_step params addr command rw ssTot dataOff data i req).ti + 1) % 16,
        st := 0 } (by omega)
    refine ⟨l, ?_, hled, hldat, hlsp⟩
    rw [List.getLast?_cons]
    simp only [hl]
    have hlen := smbus_issue_go_length params addr command rw ssTot dataOff data (n + 1)
      (i + 1)
      { smbus_phase_step params addr command rw ssTot dataOff data i req with
        ti := ((smbus_phase_step params addr command rw ssTot dataOff data i req).ti + 1) % 16,
        st := 0 }
    cases hrest : smbus_issue_go params addr command rw ssTot dataOff data (i + 1) (n + 1)
        { smbus_phase_step params addr command rw ssTot dataOff data i req with
          ti := ((smbus_phase_step params addr command rw ssTot dataOff data i req).ti + 1) % 16,
          st := 0 } with
    | nil => rw [hrest] at hlen; simp at hlen
    | cons b bl => rw [hrest] at hl; simp [hl]

/-- Looking up the address just upserted returns exactly the new
parameter tuple. -/
lemma get_after_set (ps : List BusParams) (a t w r e : Nat) :
    get_smbus_params (scd_set_smbus_params ps ⟨a, t, w, r, e⟩) a = ⟨a, t, w, r, e⟩ := by
  induction ps with
  | nil => simp [scd_set_smbus_params, get_smbus_params, List.find?]
  | cons p rest ih =>
    by_cases h : p.addr = a
    · simp [scd_set_smbus_params, h, get_smbus_params, List.find?]
    · simp only [scd_set_smbus_params, show (p.addr == a) = false by simpa using h,
        Bool.false_eq_true, if_false]
      simpa [get_smbus_params, List.find?, show (p.addr == a) = false by simpa using h]
        using ih

/-- Upserting an address that the list already holds (in particular one
just upserted) updates in place: the list length does not change. -/
lemma set_params_len (a : Nat) :
    ∀ ps (np np2 : BusParams), np.addr = a → np2.addr = a →
      (scd_set_smbus_params (scd_set_smbus_params ps np) np2).length =
        (scd_set_smbus_params ps np).length := by
  intro ps
  induction ps with
  | nil =>
    intro np np2 h1 h2
    simp [scd_set_smbus_params, show (np.addr == np2.addr) = true by simp [h1, h2]]
  | cons p rest ih =>
    intro np np2 h1 h2
    by_cases h : p.addr = np.addr
    · simp [scd_set_smbus_params, show (p.addr == np.addr) = true by simpa using h,
        show (p.addr == np2.addr) = true by simp [h, h1, h2]]
    · simp only [scd_set_smbus_params, show (p.addr == np.addr) = false by simpa using h,
        Bool.false_eq_true, if_false, show (p.addr == np2.addr) = false by
          simp [h1, h2]; omega]
      simp [ih np np2 h1 h2]

/-! ### Claim C6 -/

/-- **C6.** Every emitted phase of an SMBus transaction carries the
timing class resolved for the target address (every phase's `t` field;
the final phase additionally carries the resolved early-data flag and
the direction-specific data width and the stop marker); the resolution
is the override registered on the bus for that address, or the fixed
baseline `t = 1`, `datw = datr = 3`, `ed = 0` when no override matches;
and upserting an override for an address twice updates the entry in
place — the list length is unchanged and the lookup returns the new
values. -/
theorem claim_C6_timing_parameter_overrides :
    (∀ overrides busId addr rw command size data ds r,
      r ∈ scd_smbus_do_phases overrides busId addr rw command size data ds →
      r.t = (get_smbus_params overrides addr).t % 4) ∧
    (∀ overrides busId addr rw command size data ds,
      0 < smbus_ss size rw data ds →
      ∃ l, (scd_smbus_do_phases overrides busId addr rw command size data ds).getLast? =
             some l ∧
           l.ed = (get_smbus_params overrides addr).ed % 2 ∧
           l.dat = (if rw = I2C_SMBUS_WRITE then (get_smbus_params overrides addr).datw
                    else (get_smbus_params overrides addr).datr) % 4 ∧
           l.sp = 1) ∧
    (∀ overrides addr, (∀ p ∈ overrides, p.addr ≠ addr) →
      get_smbus_params overrides addr = default_smbus_params) ∧
    (default_smbus_params.t = 1 ∧ default_smbus_params.datw = 3 ∧
     default_smbus_params.datr = 3 ∧ default_smbus_params.ed = 0) ∧
    (∀ ps a t w r e,
      get_smbus_params (scd_set_smbus_params ps ⟨a, t, w, r, e⟩) a = ⟨a, t, w, r, e⟩) ∧
    (∀ ps a t1 w1 r1 e1 t2 w2 r2 e2,
      (scd_set_smbus_params (scd_set_smbus_params ps ⟨a, t1, w1, r1, e1⟩)
          ⟨a, t2, w2, r2, e2⟩).length =
        (scd_set_smbus_params ps ⟨a, t1, w1, r1, e1⟩).length ∧
      get_smbus_params (scd_set_smbus_params (scd_set_smbus_params ps ⟨a, t1, w1, r1, e1⟩)
          ⟨a, t2, w2, r2, e2⟩) a = ⟨a, t2, w2, r2, e2⟩) := by
  refine ⟨?_, ?_, ?_, ⟨rfl, rfl, rfl, rfl⟩, ?_, ?_⟩
  · intro overrides busId addr rw command size data ds r h
    unfold scd_smbus_do_phases at h
    have := smbus_issue_go_all_t (get_smbus_params overrides addr) addr command rw
      (smbus_ss size rw data ds) (smbus_data_offset size) data
      (smbus_ss size rw data ds) 0 _ r h
    rw [this]
    rfl
  · intro overrides busId addr rw command size data ds hss
    unfold scd_smbus_do_phases
    obtain ⟨fuel, hfuel⟩ : ∃ fuel, smbus_ss size rw data ds = fuel + 1 :=
      ⟨smbus_ss size rw data ds - 1, by omega⟩
    rw [hfuel]
    exact smbus_issue_go_last (get_smbus_params overrides addr) addr command rw
      _ (smbus_data_offset size) data fuel 0 _ (by omega)
  · intro overrides addr h
    unfold get_smbus_params
    have : overrides.find? (fun p => p.addr == addr) = none := by
      rw [List.find?_eq_none]
      intro p hp
      simpa using h p hp
    rw [this]
  · exact fun ps a t w r e => get_after_set ps a t w r e
  · intro ps a t1 w1 r1 e1 t2 w2 r2 e2
    exact ⟨set_params_len a ps _ _ rfl rfl, get_after_set _ a t2 w2 r2 e2⟩

/-- Witness for C6: on a bus with an override for address `0x48`, a
byte-data read to `0x48` stamps the override's timing class on every
phase and its data width and early-data flag on the final phase, while
the same transaction to the unregistered address `0x49` uses the
baseline 1/3/0. -/
theorem claim_C6_witness :
    (∀ r, r ∈ scd_smbus_do_phases [⟨72, 2, 1, 2, 1⟩] 0 72 I2C_SMBUS_READ 5
        I2C_SMBUS_BYTE_DATA [] 34 → r.t = 2) ∧
    (∃ l, (scd_smbus_do_phases [⟨72, 2, 1, 2, 1⟩] 0 72 I2C_SMBUS_READ 5
        I2C_SMBUS_BYTE_DATA [] 34).getLast? = some l ∧ l.ed = 1 ∧ l.dat = 2 ∧ l.sp = 1) ∧
    get_smbus_params [⟨72, 2, 1, 2, 1⟩] 73 = default_smbus_params ∧
    (scd_set_smbus_params (scd_set_smbus_params [] ⟨72, 2, 1, 2, 1⟩)
        ⟨72, 3, 3, 3, 0⟩).length = 1 := by
  refine ⟨?_, ?_, ?_, ?_⟩
  · intro r h
    exact claim_C6_timing_parameter_overrides.1 [⟨72, 2, 1, 2, 1⟩] 0 72
      I2C_SMBUS_READ 5 I2C_SMBUS_BYTE_DATA [] 34 r h
  · have := claim_C6_timing_parameter_overrides.2.1 [⟨72, 2, 1, 2, 1⟩] 0 72
      I2C_SMBUS_READ 5 I2C_SMBUS_BYTE_DATA [] 34 (by decide)
    simpa using this
  · exact claim_C6_timing_parameter_overrides.2.2.1 [⟨72, 2, 1, 2, 1⟩] 73
      (by decide)
  · simpa using
      (claim_C6_timing_parameter_overrides.2.2.2.2.2 [] 72 2 1 2 1 3 3 3 0).1

/-! ### Claim C1 -/

/-- **C1 (amended).** On the generic path the number of issued request
phases matches the §4.2 table for every enumerated shape and direction
— quick 1/1, byte 2/2, byte-data 3 write / 4 read, word-data 4 write /
5 read, address-prefixed block `2+len` write / `3+len` read,
length-prefixed block `2+buf[0]` write / `3+buf[0]` read — and the
transaction-ids stamped on the phases are `i % 16` for phase `i`:
strictly increasing from 0 with no gaps while the sequence fits the
4-bit `ti` field, wrapping modulo 16 on longer block transfers. -/
theorem claim_C1_phase_counts_and_tids :
    (∀ overrides busId addr rw command size data ds,
      (scd_smbus_do_phases overrides busId addr rw command size data ds).map SmbusReq.ti =
        (List.range (smbus_ss size rw data ds)).map (fun k => k % 16)) ∧
    (∀ overrides busId addr command data ds,
      (scd_smbus_do_phases overrides busId addr I2C_SMBUS_WRITE command
        I2C_SMBUS_QUICK data ds).length = 1 ∧
      (scd_smbus_do_phases overrides busId addr I2C_SMBUS_READ command
        I2C_SMBUS_QUICK data ds).length = 1 ∧
      (scd_smbus_do_phases overrides busId addr I2C_SMBUS_WRITE command
        I2C_SMBUS_BYTE data ds).length = 2 ∧
      (scd_smbus_do_phases overrides busId addr I2C_SMBUS_READ command
        I2C_SMBUS_BYTE data ds).length = 2 ∧
      (scd_smbus_do_phases overrides busId addr I2C_SMBUS_WRITE command
        I2C_SMBUS_BYTE_DATA data ds).length = 3 ∧
      (scd_smbus_do_phases overrides busId addr I2C_SMBUS_READ command
        I2C_SMBUS_BYTE_DATA data ds).length = 4 ∧
      (scd_smbus_do_phases overrides busId addr I2C_SMBUS_WRITE command
        I2C_SMBUS_WORD_DATA data ds).length = 4 ∧
      (scd_smbus_do_phases overrides busId addr I2C_SMBUS_READ command
        I2C_SMBUS_WORD_DATA data ds).length = 5 ∧
      (scd_smbus_do_phases overrides busId addr I2C_SMBUS_WRITE command
        I2C_SMBUS_I2C_BLOCK_DATA_MSG data ds).length = 2 + ds ∧
      (scd_smbus_do_phases overrides busId addr I2C_SMBUS_READ command
        I2C_SMBUS_I2C_BLOCK_DATA_MSG data ds).length = 3 + ds ∧
      (scd_smbus_do_phases overrides busId addr I2C_SMBUS_WRITE command
        I2C_SMBUS_I2C_BLOCK_DATA data ds).length = 2 + data.getD 0 0 ∧
      (scd_smbus_do_phases overrides busId addr I2C_SMBUS_READ command
        I2C_SMBUS_I2C_BLOCK_DATA data ds).length = 3 + data.getD 0 0) := by
  constructor
  · intro overrides busId addr rw command size data ds
    unfold scd_smbus_do_phases
    rw [smbus_issue_go_map_ti _ addr command rw _ _ data _ 0 _ (by norm_num [smbus_req_start, smbus_req_init])]
    apply List.map_congr_left
    intro a _
    norm_num [smbus_req_start, smbus_req_init]
  · intro overrides busId addr command data ds
    refine ⟨?_, ?_, ?_, ?_, ?_, ?_, ?_, ?_, ?_, ?_, ?_, ?_⟩ <;>
      · unfold scd_smbus_do_phases
        rw [smbus_issue_go_length]
        simp [smbus_ss, I2C_SMBUS_QUICK, I2C_SMBUS_BYTE, I2C_SMBUS_BYTE_DATA,
          I2C_SMBUS_WORD_DATA, I2C_SMBUS_I2C_BLOCK_DATA_MSG, I2C_SMBUS_I2C_BLOCK_DATA,
          I2C_SMBUS_BLOCK_DATA, I2C_SMBUS_WRITE, I2C_SMBUS_READ]

/-- Counterexample for C1 as stated: a length-prefixed block write with
`buf[0] = 15` issues 17 phases, whose stamped transaction-ids wrap
through the 4-bit field (`0,…,15,0`) instead of increasing without gaps. -/
theorem claim_C1_counterexample :
    ¬ ((scd_smbus_do_phases [] 0 80 I2C_SMBUS_WRITE 16 I2C_SMBUS_I2C_BLOCK_DATA
          (15 :: List.replicate 15 171) 34).map SmbusReq.ti =
        List.range (scd_smbus_do_phases [] 0 80 I2C_SMBUS_WRITE 16 I2C_SMBUS_I2C_BLOCK_DATA
          (15 :: List.replicate 15 171) 34).length) := by
  decide

/-! ### Response-loop characterization (claims C4, C7, C10) -/

/-- Full characterization of the response-processing loop of
`scd_smbus_do_impl`: it either completes cleanly after reading all
remaining responses, or aborts at the first failing phase `k` — a
validation failure (`-eio`, reason `"bad response: <tag>"`) or a
capacity failure (`-EINVAL`, reason `"buffer too short"`) — reading no
further response and appending the hardware master reset events. -/
lemma smbus_resp_go_spec (size rw ds ssTot : Nat) (resps : Nat → SmbusResp)
    (cs0 : SmbusCs) :
    ∀ fuel i buf ev, i + fuel = ssTot →
      ((smbus_resp_go size rw ds ssTot resps cs0 fuel i buf ev).ret = 0 ∧
       (smbus_resp_go size rw ds ssTot resps cs0 fuel i buf ev).reason = none ∧
       (smbus_resp_go size rw ds ssTot resps cs0 fuel i buf ev).events =
         ev ++ List.replicate fuel HwEv.rdResp) ∨
      (∃ k, i ≤ k ∧ k < ssTot ∧
        (smbus_resp_go size rw ds ssTot resps cs0 fuel i buf ev).events =
          ev ++ List.replicate (k + 1 - i) HwEv.rdResp ++
            smbus_master_reset_events cs0 ∧
        (((smbus_resp_go size rw ds ssTot resps cs0 fuel i buf ev).ret = -eio ∧
          ∃ e, smbus_check_resp (resps k) (k % 16) = some e ∧
            (smbus_resp_go size rw ds ssTot resps cs0 fuel i buf ev).reason =
              some ("bad response: " ++ e)) ∨
         ((smbus_resp_go size rw ds ssTot resps cs0 fuel i buf ev).ret = -EINVAL ∧
          (smbus_resp_go size rw ds ssTot resps cs0 fuel i buf ev).reason =
            some "buffer too short" ∧
          smbus_check_resp (resps k) (k % 16) = none))) := by
  intro fuel
  induction fuel with
  | zero =>
    intro i buf ev _
    left
    exact ⟨rfl, rfl, by simp [smbus_resp_go]⟩
  | succ n ih =>
    intro i buf ev hfuel
    have hi : i < ssTot := by omega
    rcases hc : smbus_check_resp (resps i) (i % 16) with _ | e
    · rcases hr : smbus_route size rw ssTot ds i (resps i).d buf with _ | buf2
      · right
        refine ⟨i, le_refl i, hi, ?_, Or.inr ⟨?_, ?_, hc⟩⟩ <;>
            simp only [smbus_resp_go, hc, hr] <;>
          first
          | rfl
          | (have h1 : i + 1 - i = 1 := by omega
             simp [h1, List.append_assoc])
      · have hrec : smbus_resp_go size rw ds ssTot resps cs0 (n + 1) i buf ev =
            smbus_resp_go size rw ds ssTot resps cs0 n (i + 1) buf2
              (ev ++ [HwEv.rdResp]) := by
          simp only [smbus_resp_go, hc, hr]
        rcases ih (i + 1) buf2 (ev ++ [HwEv.rdResp]) (by omega) with
          ⟨h0, hrn, hev⟩ | ⟨k, hk1, hk2, hkev, hcls⟩
        · left
          rw [hrec]
          refine ⟨h0, hrn, ?_⟩
          rw [hev, List.replicate_succ]
          simp [List.append_assoc]
        · right
          rw [hrec]
          refine ⟨k, by omega, hk2, ?_, hcls⟩
          rw [hkev]
          have hn : k + 1 - i = (k + 1 - (i + 1)) + 1 := by omega
          rw [hn, List.replicate_succ]
          simp [List.append_assoc]
    · right
      refine ⟨i, le_refl i, hi, ?_, Or.inl ⟨?_, e, hc, ?_⟩⟩ <;>
          simp only [smbus_resp_go, hc] <;>
        first
        | rfl
        | (have h1 : i + 1 - i = 1 := by omega
           simp [h1, List.append_assoc])

/-! ### Claim C4 -/

/-- A successful run of the response loop implies every phase's
validation passed: the loop cannot mask a failing check. -/
lemma smbus_resp_go_success_checks (size rw ds ssTot : Nat)
    (resps : Nat → SmbusResp) (cs0 : SmbusCs) :
    ∀ fuel i buf ev, (smbus_resp_go size rw ds ssTot resps cs0 fuel i buf ev).ret = 0 →
      ∀ k, i ≤ k → k < i + fuel → smbus_check_resp (resps k) (k % 16) = none := by
  intro fuel
  induction fuel with
  | zero => intro i buf ev _ k hk1 hk2; omega
  | succ n ih =>
    intro i buf ev hret k hk1 hk2
    rcases hc : smbus_check_resp (resps i) (i % 16) with _ | e
    · rcases hr : smbus_route size rw ssTot ds i (resps i).d buf with _ | buf2
      · simp only [smbus_resp_go, hc, hr] at hret
        exact absurd hret (by decide)
      · simp only [smbus_resp_go, hc, hr] at hret
        rcases Nat.eq_or_lt_of_le hk1 with heq | hlt
        · exact heq ▸ hc
        · exact ih (i + 1) buf2 (ev ++ [HwEv.rdResp]) hret k hlt (by omega)
    · simp only [smbus_resp_go, hc] at hret
      exact absurd hret (by decide)

/-- **C4.** Per-phase validation failures always fail the whole SMBus
exchange (a successful return implies every phase validated), and
whenever the response-processing half returns a failure the exchange was
aborted at some phase `k` (only `k + 1 ≤ ssTot` responses were read),
the error is classified with a reason string, and the event trace ends
with the hardware master reset performed before returning: a
control/status write with the `reset` and `foe` (overflow-clear) bits
set, a 50 ms hold, a write clearing `reset` (with `foe` still set), and
another 50 ms hold. -/
theorem claim_C4_fail_triggers_master_reset :
    (∀ size rw ds ssTot resps cs0 buf,
      (scd_smbus_do_resp size rw ds ssTot resps cs0 buf).ret = 0 →
      ∀ k, k < ssTot → smbus_check_resp (resps k) (k % 16) = none) ∧
    (∀ size rw ds ssTot resps cs0 buf,
      (scd_smbus_do_resp size rw ds ssTot resps cs0 buf).ret ≠ 0 →
      ∃ k, k < ssTot ∧
        (scd_smbus_do_resp size rw ds ssTot resps cs0 buf).reason ≠ none ∧
        ((scd_smbus_do_resp size rw ds ssTot resps cs0 buf).ret = -eio ∨
         (scd_smbus_do_resp size rw ds ssTot resps cs0 buf).ret = -EINVAL) ∧
        (scd_smbus_do_resp size rw ds ssTot resps cs0 buf).events =
          List.replicate (k + 1) HwEv.rdResp ++
            [HwEv.rdCs, HwEv.wrCs { cs0 with reset := 1, foe := 1 }, HwEv.sleepMs 50,
             HwEv.wrCs { cs0 with reset := 0, foe := 1 }, HwEv.sleepMs 50]) := by
  constructor
  · intro size rw ds ssTot resps cs0 buf hret k hk
    exact smbus_resp_go_success_checks size rw ds ssTot resps cs0 ssTot 0 buf []
      hret k (by omega) (by omega)
  · intro size rw ds ssTot resps cs0 buf h
    unfold scd_smbus_do_resp at h ⊢
    rcases smbus_resp_go_spec size rw ds ssTot resps cs0 ssTot 0 buf [] (by omega) with
      ⟨h0, _, _⟩ | ⟨k, _, hk2, hkev, hcls⟩
    · exact absurd h0 h
    · refine ⟨k, hk2, ?_, ?_, ?_⟩
      · rcases hcls with ⟨_, e, _, hrsn⟩ | ⟨_, hrsn, _⟩ <;> simp [hrsn]
      · rcases hcls with ⟨hret, _⟩ | ⟨hret, _⟩
        · exact Or.inl hret
        · exact Or.inr hret
      · rw [hkev]
        simp [smbus_master_reset_events]

/-- Witness for C4: a single-phase exchange whose response carries an
ack-error aborts with `-eio` and the trace shows the full reset
sequence; a clean two-phase exchange implies both validations passed. -/
theorem claim_C4_witness :
    (∀ k, k < 2 → smbus_check_resp ((fun j => ⟨0, 0, 0, 0, 0, j % 16, 0, 0, 0⟩ :
        Nat → SmbusResp) k) (k % 16) = none) ∧
    ∃ k, k < 1 ∧
      (scd_smbus_do_resp 0 0 0 1 (fun _ => ⟨0, 0, 0, 1, 0, 0, 0, 0, 0⟩)
        ⟨0, 0, 0, 0, 0, 0⟩ []).reason ≠ none ∧
      ((scd_smbus_do_resp 0 0 0 1 (fun _ => ⟨0, 0, 0, 1, 0, 0, 0, 0, 0⟩)
        ⟨0, 0, 0, 0, 0, 0⟩ []).ret = -eio ∨
       (scd_smbus_do_resp 0 0 0 1 (fun _ => ⟨0, 0, 0, 1, 0, 0, 0, 0, 0⟩)
        ⟨0, 0, 0, 0, 0, 0⟩ []).ret = -EINVAL) ∧
      (scd_smbus_do_resp 0 0 0 1 (fun _ => ⟨0, 0, 0, 1, 0, 0, 0, 0, 0⟩)
        ⟨0, 0, 0, 0, 0, 0⟩ []).events =
        List.replicate (k + 1) HwEv.rdResp ++
          [HwEv.rdCs, HwEv.wrCs { fs := 0, foe := 1, brb := 0, ver := 0, fe := 0, reset := 1 },
           HwEv.sleepMs 50,
           HwEv.wrCs { fs := 0, foe := 1, brb := 0, ver := 0, fe := 0, reset := 0 },
           HwEv.sleepMs 50] :=
  ⟨claim_C4_fail_triggers_master_reset.1 0 0 0 2
      (fun j => ⟨0, 0, 0, 0, 0, j % 16, 0, 0, 0⟩) ⟨0, 0, 0, 0, 0, 0⟩ [] (by decide),
   claim_C4_fail_triggers_master_reset.2 0 0 0 1 (fun _ => ⟨0, 0, 0, 1, 0, 0, 0, 0, 0⟩)
      ⟨0, 0, 0, 0, 0, 0⟩ [] (by decide)⟩

/-! ### Claim C10 -/

/-- **C10.** A capacity (`"buffer too short"`) abort of an SMBus read
performs the same full hardware master reset as the protocol errors —
the trace ends with the reset's register writes and 50 ms holds — and
returns `-EINVAL`, which the adapter-layer retry loop treats as
non-retryable: the transaction is not replayed (exactly one execution). -/
theorem claim_C10_capacity_error_resets_not_retried :
    (∀ size rw ds ssTot resps cs0 buf,
      (scd_smbus_do_resp size rw ds ssTot resps cs0 buf).reason =
        some "buffer too short" →
      (scd_smbus_do_resp size rw ds ssTot resps cs0 buf).ret = -EINVAL ∧
      ∃ pre, (scd_smbus_do_resp size rw ds ssTot resps cs0 buf).events =
        pre ++ [HwEv.rdCs, HwEv.wrCs { cs0 with reset := 1, foe := 1 }, HwEv.sleepMs 50,
                HwEv.wrCs { cs0 with reset := 0, foe := 1 }, HwEv.sleepMs 50]) ∧
    (∀ attempt mr, attempt 0 = -EINVAL →
      scd_smbus_access_model attempt mr = (-EINVAL, 1)) := by
  constructor
  · intro size rw ds ssTot resps cs0 buf hrsn
    unfold scd_smbus_do_resp at hrsn ⊢
    rcases smbus_resp_go_spec size rw ds ssTot resps cs0 ssTot 0 buf [] (by omega) with
      ⟨_, hrn, _⟩ | ⟨k, _, _, hkev, hcls⟩
    · rw [hrn] at hrsn
      cases hrsn
    · rcases hcls with ⟨_, e, hce, hrsn2⟩ | ⟨hret, _, _⟩
      · exfalso
        rw [hrsn2] at hrsn
        have he := smbus_check_resp_tags _ _ _ hce
        injection hrsn with hstr
        fin_cases he <;> exact absurd hstr (by decide)
      · refine ⟨hret, List.replicate (k + 1) HwEv.rdResp, ?_⟩
        rw [hkev]
        simp [smbus_master_reset_events]
  · intro attempt mr he
    unfold scd_smbus_access_model
    rw [scd_smbus_access_go]
    have hne : (-EINVAL : Int) ≠ -eio := by decide
    simp [he, hne]

/-- Witness for C10: a block-data read of 4 phases into a zero-capacity
buffer aborts with `-EINVAL` after the reset trace, and a `-EINVAL`
attempt is not retried. -/
theorem claim_C10_witness :
    ((scd_smbus_do_resp I2C_SMBUS_BLOCK_DATA 1 0 4
        (fun k => ⟨0, 0, 0, 0, 0, k % 16, 0, 0, 0⟩) ⟨0, 0, 0, 0, 0, 0⟩ []).ret = -EINVAL ∧
     ∃ pre, (scd_smbus_do_resp I2C_SMBUS_BLOCK_DATA 1 0 4
        (fun k => ⟨0, 0, 0, 0, 0, k % 16, 0, 0, 0⟩) ⟨0, 0, 0, 0, 0, 0⟩ []).events =
        pre ++ [HwEv.rdCs,
                HwEv.wrCs { fs := 0, foe := 1, brb := 0, ver := 0, fe := 0, reset := 1 },
                HwEv.sleepMs 50,
                HwEv.wrCs { fs := 0, foe := 1, brb := 0, ver := 0, fe := 0, reset := 0 },
                HwEv.sleepMs 50]) ∧
    scd_smbus_access_model (fun _ => -EINVAL) MASTER_DEFAULT_MAX_RETRIES =
      (-EINVAL, 1) :=
  ⟨claim_C10_capacity_error_resets_not_retried.1 I2C_SMBUS_BLOCK_DATA 1 0 4
      (fun k => ⟨0, 0, 0, 0, 0, k % 16, 0, 0, 0⟩) ⟨0, 0, 0, 0, 0, 0⟩ [] (by decide),
   claim_C10_capacity_error_resets_not_retried.2 (fun _ => -EINVAL)
      MASTER_DEFAULT_MAX_RETRIES rfl⟩

/-! ### Claim C7 -/

/-- The block-prefix a read deposits: bytes of phases `lo, lo+1, …`
written at buffer indices `lo - off, lo - off + 1, …` (`off` is 3 for
the blocks routed at `block[i-3]`, 2 for `I2C_SMBUS_I2C_BLOCK_DATA`). -/
def smbus_block_fill (resps : Nat → SmbusResp) (off : Nat) :
    Nat → Nat → List Nat → List Nat
  | _, 0, buf => buf
  | lo, n + 1, buf =>
    smbus_block_fill resps off (lo + 1) n (buf.set (lo - off) (resps lo).d)

/-- `smbus_block_fill` never touches indices at or beyond its write
range. -/
lemma smbus_block_fill_getElem? (resps : Nat → SmbusResp) (off : Nat) :
    ∀ n lo buf j, off ≤ lo → lo - off + n ≤ j →
      (smbus_block_fill resps off lo n buf)[j]? = buf[j]? := by
  intro n
  induction n with
  | zero => intro lo buf j _ _; rfl
  | succ m ih =>
    intro lo buf j hoff hj
    rw [smbus_block_fill]
    rw [ih (lo + 1) _ j (by omega) (by omega)]
    exact List.getElem?_set_ne (by omega)

/-- For the block-routed sizes, a successful routing step writes only
below the capacity `ds`, preserving every index at or beyond it. -/
lemma smbus_route_preserve (size rw ssTot ds i d : Nat) (buf buf2 : List Nat)
    (h1 : size ≠ I2C_SMBUS_BYTE) (h2 : size ≠ I2C_SMBUS_BYTE_DATA)
    (h3 : size ≠ I2C_SMBUS_WORD_DATA)
    (hr : smbus_route size rw ssTot ds i d buf = some buf2) :
    ∀ j, ds ≤ j → buf2[j]? = buf[j]? := by
  intro j hj
  unfold smbus_route at hr
  by_cases hrw : rw = I2C_SMBUS_READ
  · rw [if_pos hrw, if_neg (not_or.mpr ⟨h1, h2⟩), if_neg h3] at hr
    by_cases h3i : 3 ≤ i
    · rw [if_pos h3i] at hr
      by_cases h8 : size = I2C_SMBUS_I2C_BLOCK_DATA
      · rw [if_pos h8] at hr
        by_cases hds : ds ≤ i - 2
        · rw [if_pos hds] at hr; cases hr
        · rw [if_neg hds] at hr
          injection hr with hb
          subst hb
          exact List.getElem?_set_ne (by omega)
      · rw [if_neg h8] at hr
        by_cases hds : ds ≤ i - 3
        · rw [if_pos hds] at hr; cases hr
        · rw [if_neg hds] at hr
          injection hr with hb
          subst hb
          exact List.getElem?_set_ne (by omega)
    · rw [if_neg h3i] at hr
      injection hr with hb
      subst hb
      rfl
  · rw [if_neg hrw] at hr
    injection hr with hb
    subst hb
    rfl

/-- For the block-routed sizes, the whole response loop never writes at
or beyond the capacity `ds`. -/
lemma smbus_resp_go_buf_preserve (size rw ds ssTot : Nat) (resps : Nat → SmbusResp)
    (cs0 : SmbusCs) (h1 : size ≠ I2C_SMBUS_BYTE) (h2 : size ≠ I2C_SMBUS_BYTE_DATA)
    (h3 : size ≠ I2C_SMBUS_WORD_DATA) :
    ∀ fuel i buf ev j, ds ≤ j →
      ((smbus_resp_go size rw ds ssTot resps cs0 fuel i buf ev).buf)[j]? = buf[j]? := by
  intro fuel
  induction fuel with
  | zero => intro i buf ev j _; rfl
  | succ n ih =>
    intro i buf ev j hj
    rcases hc : smbus_check_resp (resps i) (i % 16) with _ | e
    · rcases hr : smbus_route size rw ssTot ds i (resps i).d buf with _ | buf2
      · simp only [smbus_resp_go, hc, hr]
      · have hstep := smbus_route_preserve size rw ssTot ds i (resps i).d buf buf2
          h1 h2 h3 hr j hj
        simp only [smbus_resp_go, hc, hr]
        rw [ih (i + 1) buf2 (ev ++ [HwEv.rdResp]) j hj, hstep]
    · simp only [smbus_resp_go, hc]

/-- When every response validates, the generic read of a block-routed
shape with data offset `off` (3 for the final `else`, 2 for
`I2C_SMBUS_I2C_BLOCK_DATA`) runs out of buffer at phase `ds + off`:
the loop stores phases `3 … ds+off-1`, then aborts with the capacity
error and the master reset, leaving the stored prefix in place. -/
lemma smbus_resp_go_overflow (size rw ds ssTot off : Nat) (resps : Nat → SmbusResp)
    (cs0 : SmbusCs)
    (hsize : (size = I2C_SMBUS_I2C_BLOCK_DATA ∧ off = 2) ∨
      (size ≠ I2C_SMBUS_BYTE ∧ size ≠ I2C_SMBUS_BYTE_DATA ∧
       size ≠ I2C_SMBUS_WORD_DATA ∧ size ≠ I2C_SMBUS_I2C_BLOCK_DATA ∧ off = 3))
    (hrw : rw = I2C_SMBUS_READ)
    (hchecks : ∀ k, k < ssTot → smbus_check_resp (resps k) (k % 16) = none)
    (hlo : 3 ≤ ds + off) (hss : ds + off < ssTot) :
    ∀ fuel i buf ev, i + fuel = ssTot → i ≤ ds + off →
      smbus_resp_go size rw ds ssTot resps cs0 fuel i buf ev =
        ⟨-EINVAL, some "buffer too short",
         smbus_block_fill resps off (max 3 i) (ds + off - max 3 i) buf,
         ev ++ List.replicate (ds + off + 1 - i) HwEv.rdResp ++
           smbus_master_reset_events cs0⟩ := by
  intro fuel
  induction fuel with
  | zero => intro i buf ev hf hle; omega
  | succ n ih =>
    intro i buf ev hf hle
    have hi : i < ssTot := by omega
    have hc := hchecks i hi
    by_cases hend : i = ds + off
    · have h3i : 3 ≤ i := by omega
      have hroute : smbus_route size rw ssTot ds i (resps i).d buf = none := by
        unfold smbus_route
        rcases hsize with ⟨h8, hoff⟩ | ⟨h1, h2, h3, h8, hoff⟩
        · rw [if_pos hrw, if_neg (by simp [h8, I2C_SMBUS_I2C_BLOCK_DATA,
            I2C_SMBUS_BYTE, I2C_SMBUS_BYTE_DATA]), if_neg (by simp [h8,
            I2C_SMBUS_I2C_BLOCK_DATA, I2C_SMBUS_WORD_DATA]), if_pos h3i,
            if_pos h8, if_pos (by omega)]
        · rw [if_pos hrw, if_neg (not_or.mpr ⟨h1, h2⟩), if_neg h3, if_pos h3i,
            if_neg h8, if_pos (by omega)]
      simp only [smbus_resp_go, hc, hroute]
      have hmax : max 3 i = i := by omega
      rw [hmax]
      have hcount : ds + off - i = 0 := by omega
      have hrep : ds + off + 1 - i = 1 := by omega
      rw [hcount, hrep]
      simp [smbus_block_fill, List.append_assoc]
    · have hlt : i < ds + off := by omega
      by_cases h3i : 3 ≤ i
      · have hroute : smbus_route size rw ssTot ds i (resps i).d buf =
            some (buf.set (i - off) (resps i).d) := by
          unfold smbus_route
          rcases hsize with ⟨h8, hoff⟩ | ⟨h1, h2, h3, h8, hoff⟩
          · rw [if_pos hrw, if_neg (by simp [h8, I2C_SMBUS_I2C_BLOCK_DATA,
              I2C_SMBUS_BYTE, I2C_SMBUS_BYTE_DATA]), if_neg (by simp [h8,
              I2C_SMBUS_I2C_BLOCK_DATA, I2C_SMBUS_WORD_DATA]), if_pos h3i,
              if_pos h8, if_neg (by omega), hoff]
          · rw [if_pos hrw, if_neg (not_or.mpr ⟨h1, h2⟩), if_neg h3, if_pos h3i,
              if_neg h8, if_neg (by omega), hoff]
        simp only [smbus_resp_go, hc, hroute]
        rw [ih (i + 1) (buf.set (i - off) (resps i).d) (ev ++ [HwEv.rdResp])
          (by omega) (by omega)]
        have hm1 : max 3 (i + 1) = i + 1 := by omega
        have hm2 : max 3 i = i := by omega
        rw [hm1, hm2]
        have hfill : smbus_block_fill resps off i (ds + off - i) buf =
            smbus_block_fill resps off (i + 1) (ds + off - (i + 1))
              (buf.set (i - off) (resps i).d) := by
          have hcount : ds + off - i = (ds + off - (i + 1)) + 1 := by omega
          rw [hcount, smbus_block_fill]
        rw [← hfill]
        have hrep : ds + off + 1 - i = (ds + off + 1 - (i + 1)) + 1 := by omega
        rw [hrep, List.replicate_succ]
        simp [List.append_assoc]
      · have hroute : smbus_route size rw ssTot ds i (resps i).d buf = some buf := by
          unfold smbus_route
          rcases hsize with ⟨h8, hoff⟩ | ⟨h1, h2, h3, h8, hoff⟩
          · rw [if_pos hrw, if_neg (by simp [h8, I2C_SMBUS_I2C_BLOCK_DATA,
              I2C_SMBUS_BYTE, I2C_SMBUS_BYTE_DATA]), if_neg (by simp [h8,
              I2C_SMBUS_I2C_BLOCK_DATA, I2C_SMBUS_WORD_DATA]), if_neg h3i]
          · rw [if_pos hrw, if_neg (not_or.mpr ⟨h1, h2⟩), if_neg h3, if_neg h3i]
        simp only [smbus_resp_go, hc, hroute]
        rw [ih (i + 1) buf (ev ++ [HwEv.rdResp]) (by omega) (by omega)]
        have hm1 : max 3 (i + 1) = max 3 i := by omega
        rw [hm1]
        have hrep : ds + off + 1 - i = (ds + off + 1 - (i + 1)) + 1 := by omega
        rw [hrep, List.replicate_succ]
        simp [List.append_assoc]

/-- When every response validates but the caller's buffer is too small
for the hardware-reported length, the tail of the hardware-assisted
block read fails at phase `ds + 3` with the capacity error, leaving the
prefix written so far. -/
lemma smbus_br_tail_overflow (resps : Nat → SmbusResp) (ds : Nat)
    (hchecks : ∀ k, smbus_check_resp (resps k) (k % 16) = none) :
    ∀ n i buf, 4 ≤ i → i ≤ ds + 3 → ds + 4 ≤ i + n →
      smbus_br_tail resps ds i n buf =
        (-EINVAL, smbus_block_fill resps 3 i (ds + 3 - i) buf) := by
  intro n
  induction n with
  | zero => intro i buf h4 hle hn; omega
  | succ m ih =>
    intro i buf h4 hle hn
    simp only [smbus_br_tail, hchecks i]
    by_cases hend : i = ds + 3
    · rw [if_pos (by omega : ds ≤ i - 3)]
      have hc : ds + 3 - i = 0 := by omega
      rw [hc]
      rfl
    · rw [if_neg (by omega : ¬ ds ≤ i - 3)]
      rw [ih (i + 1) _ (by omega) (by omega) (by omega)]
      have hc : ds + 3 - i = (ds + 3 - (i + 1)) + 1 := by omega
      rw [hc, smbus_block_fill]

/-- The hardware-assisted block read (`scd_smbus_block_read`): when all
responses validate but the hardware-reported block length `resps₃.d`
does not fit the capacity (`ds ≤ resps₃.d` — the buffer must hold the
length byte plus `resps₃.d` data bytes), the read aborts with `-EINVAL`
having stored exactly the first `ds` bytes. -/
lemma scd_smbus_block_read_overflow (resps : Nat → SmbusResp) (ds : Nat)
    (buf : List Nat) (hchecks : ∀ k, smbus_check_resp (resps k) (k % 16) = none)
    (hover : ds ≤ (resps 3).d) :
    scd_smbus_block_read_resp resps ds buf =
      (-EINVAL, smbus_block_fill resps 3 3 ds buf) := by
  unfold scd_smbus_block_read_resp
  have h0 : smbus_check_resp (resps 0) 0 = none := by simpa using hchecks 0
  have h1 : smbus_check_resp (resps 1) 1 = none := by
    have := hchecks 1; norm_num at this; exact this
  have h2 : smbus_check_resp (resps 2) 2 = none := by
    have := hchecks 2; norm_num at this; exact this
  have h3 : smbus_check_resp (resps 3) 3 = none := by
    have := hchecks 3; norm_num at this; exact this
  simp only [h0, h1, h2, h3]
  by_cases hds : ds = 0
  · subst hds
    rw [if_pos (le_refl 0)]
    rfl
  · rw [if_neg (by omega : ¬ ds ≤ 0)]
    rw [smbus_br_tail_overflow resps ds hchecks ((resps 3).d) 4 _ (by omega)
      (by omega) (by omega)]
    have hc : ds = (ds - 1) + 1 := by omega
    have hfill : smbus_block_fill resps 3 3 ds buf =
        smbus_block_fill resps 3 4 (ds - 1) (buf.set 0 (resps 3).d) := by
      conv_lhs => rw [hc]
      rw [smbus_block_fill]
    rw [hfill]
    have hc2 : ds + 3 - 4 = ds - 1 := by omega
    rw [hc2]

/-- **C7.** A block or i2c-block read never writes at or beyond the
caller-supplied capacity, and when the hardware returns more data bytes
than the capacity the call aborts with the `-EINVAL` capacity error
(reason `"buffer too short"`), reporting failure rather than partial
success, with the already-written prefix bytes left in place:
* (generic `I2C_SMBUS_BLOCK_DATA` read, routed at `block[i-3]`) with all
  responses valid and `ds + 3 < ssTot` phases, the loop aborts at phase
  `ds + 3` having stored exactly bytes `0 … ds - 1`;
* (generic `I2C_SMBUS_I2C_BLOCK_DATA` read, routed at `block[i-2]`)
  likewise at phase `ds + 2`;
* (hardware-assisted block read) with all responses valid and a reported
  length that cannot fit, the read returns `-EINVAL` with exactly the
  first `ds` bytes stored, indices at or past `ds` untouched. -/
theorem claim_C7_buffer_capacity :
    (∀ size rw ds ssTot resps cs0 buf j, size ≠ I2C_SMBUS_BYTE →
      size ≠ I2C_SMBUS_BYTE_DATA → size ≠ I2C_SMBUS_WORD_DATA → ds ≤ j →
      ((scd_smbus_do_resp size rw ds ssTot resps cs0 buf).buf)[j]? = buf[j]?) ∧
    (∀ ds ssTot resps cs0 buf,
      (∀ k, k < ssTot → smbus_check_resp (resps k) (k % 16) = none) →
      ds + 3 < ssTot →
      scd_smbus_do_resp I2C_SMBUS_BLOCK_DATA I2C_SMBUS_READ ds ssTot resps cs0 buf =
        ⟨-EINVAL, some "buffer too short", smbus_block_fill resps 3 3 ds buf,
         List.replicate (ds + 4) HwEv.rdResp ++ smbus_master_reset_events cs0⟩) ∧
    (∀ ds ssTot resps cs0 buf, 1 ≤ ds →
      (∀ k, k < ssTot → smbus_check_resp (resps k) (k % 16) = none) →
      ds + 2 < ssTot →
      scd_smbus_do_resp I2C_SMBUS_I2C_BLOCK_DATA I2C_SMBUS_READ ds ssTot resps cs0 buf =
        ⟨-EINVAL, some "buffer too short", smbus_block_fill resps 2 3 (ds - 1) buf,
         List.replicate (ds + 3) HwEv.rdResp ++ smbus_master_reset_events cs0⟩) ∧
    (∀ resps ds buf, (∀ k, smbus_check_resp (resps k) (k % 16) = none) →
      ds ≤ (resps 3).d →
      scd_smbus_block_read_resp resps ds buf =
        (-EINVAL, smbus_block_fill resps 3 3 ds buf) ∧
      ∀ j, ds ≤ j → (smbus_block_fill resps 3 3 ds buf)[j]? = buf[j]?) := by
  refine ⟨?_, ?_, ?_, ?_⟩
  · intro size rw ds ssTot resps cs0 buf j h1 h2 h3 hj
    unfold scd_smbus_do_resp
    exact smbus_resp_go_buf_preserve size rw ds ssTot resps cs0 h1 h2 h3
      ssTot 0 buf [] j hj
  · intro ds ssTot resps cs0 buf hchecks hss
    unfold scd_smbus_do_resp
    rw [smbus_resp_go_overflow I2C_SMBUS_BLOCK_DATA I2C_SMBUS_READ ds ssTot 3 resps cs0
      (Or.inr ⟨by decide, by decide, by decide, by decide, rfl⟩) rfl hchecks
      (by omega) (by omega) ssTot 0 buf [] (by omega) (by omega)]
    have hm : max 3 0 = 3 := by omega
    rw [hm]
    have hc1 : ds + 3 - 3 = ds := by omega
    have hc2 : ds + 3 + 1 - 0 = ds + 4 := by omega
    rw [hc1, hc2]
    simp
  · intro ds ssTot resps cs0 buf hds hchecks hss
    unfold scd_smbus_do_resp
    rw [smbus_resp_go_overflow I2C_SMBUS_I2C_BLOCK_DATA I2C_SMBUS_READ ds ssTot 2 resps cs0
      (Or.inl ⟨rfl, rfl⟩) rfl hchecks (by omega) (by omega) ssTot 0 buf []
      (by omega) (by omega)]
    have hm : max 3 0 = 3 := by omega
    rw [hm]
    have hc1 : ds + 2 - 3 = ds - 1 := by omega
    have hc2 : ds + 2 + 1 - 0 = ds + 3 := by omega
    rw [hc1, hc2]
    simp
  · intro resps ds buf hchecks hover
    refine ⟨scd_smbus_block_read_overflow resps ds buf hchecks hover, ?_⟩
    intro j hj
    exact smbus_block_fill_getElem? resps 3 ds 3 buf j (by omega) (by omega)

/-- Witness for C7: a 5-phase generic block read into a one-byte buffer
aborts with the capacity error, stores exactly one byte, and leaves the
bytes past the capacity untouched; the hardware-assisted variant with a
reported length of 2 against capacity 2 likewise fails with the prefix
stored. -/
theorem claim_C7_witness :
    ((scd_smbus_do_resp I2C_SMBUS_BLOCK_DATA I2C_SMBUS_READ 1 5
        (fun k => ⟨7, 0, 0, 0, 0, k % 16, 0, 0, 0⟩) ⟨0, 0, 0, 0, 0, 0⟩
        [9, 9, 9]).buf)[2]? = [(9 : Nat), 9, 9][2]? ∧
    scd_smbus_do_resp I2C_SMBUS_BLOCK_DATA I2C_SMBUS_READ 1 5
        (fun k => ⟨7, 0, 0, 0, 0, k % 16, 0, 0, 0⟩) ⟨0, 0, 0, 0, 0, 0⟩ [9, 9, 9] =
      ⟨-EINVAL, some "buffer too short",
       smbus_block_fill (fun k => ⟨7, 0, 0, 0, 0, k % 16, 0, 0, 0⟩) 3 3 1 [9, 9, 9],
       List.replicate 5 HwEv.rdResp ++ smbus_master_reset_events ⟨0, 0, 0, 0, 0, 0⟩⟩ ∧
    scd_smbus_block_read_resp (fun k => ⟨2, 0, 0, 0, 0, k % 16, 0, 0, 0⟩) 2 [9, 9, 9] =
      (-EINVAL, smbus_block_fill (fun k => ⟨2, 0, 0, 0, 0, k % 16, 0, 0, 0⟩) 3 3 2
        [9, 9, 9]) := by
  refine ⟨?_, ?_, ?_⟩
  · exact claim_C7_buffer_capacity.1 I2C_SMBUS_BLOCK_DATA I2C_SMBUS_READ 1 5
      (fun k => ⟨7, 0, 0, 0, 0, k % 16, 0, 0, 0⟩) ⟨0, 0, 0, 0, 0, 0⟩ [9, 9, 9] 2
      (by decide) (by decide) (by decide) (by omega)
  · have := claim_C7_buffer_capacity.2.1 1 5
      (fun k => ⟨7, 0, 0, 0, 0, k % 16, 0, 0, 0⟩) ⟨0, 0, 0, 0, 0, 0⟩ [9, 9, 9]
      (fun k _ => by simp [smbus_check_resp]) (by omega)
    simpa using this
  · exact (claim_C7_buffer_capacity.2.2.2 (fun k => ⟨2, 0, 0, 0, 0, k % 16, 0, 0, 0⟩)
      2 [9, 9, 9] (fun k => by simp [smbus_check_resp]) (by decide)).1

/-! ### Claim C9 -/

/-- Counterexample for C9 as stated: on a device already marked
initialized, a `smbus_tweaks` write submitting a timing-parameter
override line for an existing bus is **not** rejected — it returns
success and mutates the per-address override registry. -/
theorem claim_C9_counterexample :
    (smbus_tweaks_model ⟨true, [⟨3, [⟨0, []⟩]⟩]⟩ 0 ⟨80, 2, 1, 1, 1⟩).1 = 0 ∧
    (smbus_tweaks_model ⟨true, [⟨3, [⟨0, []⟩]⟩]⟩ 0 ⟨80, 2, 1, 1, 1⟩).2 ≠
      ⟨true, [⟨3, [⟨0, []⟩]⟩]⟩ := by
  decide

/-- **C9 (amended).** Only object-creation configuration lines are gated
on initialization: once the device is marked initialized a `new_object`
write is rejected with `-EBUSY` before any line is parsed, leaving the
registry unchanged, while an uninitialized device has the creation
applied; a `smbus_tweaks` timing-parameter-override write carries no
initialization check at all — its result and its effect on the override
registry are the same whatever the `initialized` flag. -/
theorem claim_C9_config_init_gate :
    (∀ ctx id bc nr, ctx.initialized = true →
      new_object_smbus_master ctx id bc nr = (-EBUSY, ctx)) ∧
    (∀ ctx id bc nr, ctx.initialized = false →
      new_object_smbus_master ctx id bc nr = scd_smbus_master_add ctx id bc nr) ∧
    (∀ ctx bus_nr np b,
      (smbus_tweaks_model { ctx with initialized := b } bus_nr np).1 =
        (smbus_tweaks_model ctx bus_nr np).1 ∧
      (smbus_tweaks_model { ctx with initialized := b } bus_nr np).2 =
        { (smbus_tweaks_model ctx bus_nr np).2 with initialized := b }) := by
  refine ⟨?_, ?_, ?_⟩
  · intro ctx id bc nr h
    unfold new_object_smbus_master
    rw [h]
    simp
  · intro ctx id bc nr h
    unfold new_object_smbus_master
    rw [h]
    simp
  · intro ctx bus_nr np b
    have hf : scd_find_smbus { ctx with initialized := b } bus_nr =
        scd_find_smbus ctx bus_nr := rfl
    unfold smbus_tweaks_model
    rw [hf]
    rcases h : scd_find_smbus ctx bus_nr with _ | v
    · exact ⟨rfl, rfl⟩
    · exact ⟨rfl, rfl⟩

/-- Witness for C9 (amended): a creation line on an initialized device
is rejected with the registry intact, and an override line behaves
identically on an initialized and an uninitialized device. -/
theorem claim_C9_witness :
    new_object_smbus_master ⟨true, []⟩ 4 8 0 = (-EBUSY, ⟨true, []⟩) ∧
    (smbus_tweaks_model ⟨true, [⟨3, [⟨0, []⟩]⟩]⟩ 0 ⟨80, 2, 1, 1, 1⟩).1 =
      (smbus_tweaks_model ⟨false, [⟨3, [⟨0, []⟩]⟩]⟩ 0 ⟨80, 2, 1, 1, 1⟩).1 :=
  ⟨claim_C9_config_init_gate.1 ⟨true, []⟩ 4 8 0 rfl,
   (claim_C9_config_init_gate.2.2 ⟨false, [⟨3, [⟨0, []⟩]⟩]⟩ 0 ⟨80, 2, 1, 1, 1⟩ true).1⟩

end Scd
